import Mathlib

/-
  Verification development for the TTS-Arena-V2 rating core.

  Shallow embedding of:
  - models.py : calculate_elo_change, record_vote, get_leaderboard_data,
    get_historical_leaderboard_data, get_key_historical_dates
  - app.py : submit_vote / submit_podcast_vote session handling
  - security.py : detect_suspicious_voting_patterns, detect_rapid_voting,
    check_user_security_score

  Embedding conventions:
  - Python floats are idealised as real numbers; money-free Elo arithmetic uses
    Real.rpow for math.pow(10, x).
  - Python datetimes are embedded as a record of (year, month, day, time-of-day)
    compared lexicographically; where only a linear timeline is needed
    (security.py) timestamps are rational seconds.
  - SQLAlchemy tables are lists of records; filter_by/first are List.filter and
    List.find?; the request-scoped transaction of record_vote is a pure state
    transition that returns the unchanged state on rollback.
  - Python list.sort and SQL ORDER BY ... DESC are embedded with the stable
    List.mergeSort on a boolean comparison.
-/

namespace Arena

/-! ### Numeric display helpers -/

/-- Truncation toward zero of a rational, as Python int() does. -/
def pyTruncQ (q : ℚ) : ℤ := if 0 ≤ q then ⌊q⌋ else ⌈q⌉

/-- Truncation toward zero of a real, as Python int() does on a float. -/
noncomputable def pyTruncR (x : ℝ) : ℤ := if 0 ≤ x then ⌊x⌋ else ⌈x⌉

/-- Rounding to the nearest integer with ties to even, as Python
format specifier .0f does on an exactly-representable value. -/
def roundHalfEven (q : ℚ) : ℤ :=
  if q - ⌊q⌋ < 1/2 then ⌊q⌋
  else if 1/2 < q - ⌊q⌋ then ⌊q⌋ + 1
  else if ⌊q⌋ % 2 = 0 then ⌊q⌋ else ⌊q⌋ + 1

/-! ### Datetimes (calendar granularity, as used by models.py) -/

/-- A Python datetime: year, month (1-12), day (1-31) and time of day
(sub-day precision collapsed into one natural number). -/
structure DT where
  year : ℕ
  month : ℕ
  day : ℕ
  tod : ℕ
deriving DecidableEq

/-- Lexicographic comparison of datetimes, Python <=. -/
def DT.leb (a b : DT) : Bool :=
  decide (a.year < b.year) ||
    (a.year == b.year &&
      (decide (a.month < b.month) ||
        (a.month == b.month &&
          (decide (a.day < b.day) || (a.day == b.day && decide (a.tod ≤ b.tod))))))

/-- Lexicographic comparison of datetimes, Python <. -/
def DT.ltb (a b : DT) : Bool :=
  decide (a.year < b.year) ||
    (a.year == b.year &&
      (decide (a.month < b.month) ||
        (a.month == b.month &&
          (decide (a.day < b.day) || (a.day == b.day && decide (a.tod < b.tod))))))

/-! ### Data model (models.py) -/

/-- A row of the model table (a ranked candidate). -/
structure ModelRec where
  id : String
  name : String
  model_type : String
  current_elo : ℝ
  win_count : ℕ
  match_count : ℕ
  is_open : Bool
  is_active : Bool
  model_url : Option String

/-- A row of the vote table. -/
structure VoteRec where
  id : ℕ
  user_id : Option ℕ
  text : String
  vote_date : DT
  model_chosen : String
  model_rejected : String
  model_type : String

/-- A row of the elo_history table. -/
structure EloHistoryRec where
  model_id : String
  timestamp : DT
  elo_score : ℝ
  vote_id : Option ℕ
  model_type : String

/-- The persistent database state touched by record_vote. -/
structure ArenaState where
  models : List ModelRec
  votes : List VoteRec
  elo_history : List EloHistoryRec

/-- models.py calculate_elo_change: expected scores from the rating gap, then
new ratings with outcome 1 for the winner and 0 for the loser. -/
noncomputable def calculate_elo_change (winner_elo loser_elo : ℝ) (k_factor : ℝ := 32) :
    ℝ × ℝ :=
  let expected_winner := 1 / (1 + (10 : ℝ) ^ ((loser_elo - winner_elo) / 400))
  let expected_loser := 1 / (1 + (10 : ℝ) ^ ((winner_elo - loser_elo) / 400))
  (winner_elo + k_factor * (1 - expected_winner),
   loser_elo + k_factor * (0 - expected_loser))

/-- Model.query.filter_by(id=..., model_type=...).first(). -/
def findModel (models : List ModelRec) (id model_type : String) : Option ModelRec :=
  models.find? (fun m => m.id == id && m.model_type == model_type)

/-- In-place mutation of the row with the given id and model_type
(id is the primary key; SQLAlchemy mutates the mapped object). -/
def updateModel (models : List ModelRec) (id model_type : String)
    (f : ModelRec → ModelRec) : List ModelRec :=
  models.map (fun m => if m.id == id && m.model_type == model_type then f m else m)

/-- The winner-side mutation of record_vote: new rating, win_count and
match_count both incremented. -/
def winnerUpdate (new_elo : ℝ) (m : ModelRec) : ModelRec :=
  { m with current_elo := new_elo, win_count := m.win_count + 1,
           match_count := m.match_count + 1 }

/-- The loser-side mutation of record_vote: new rating, match_count
incremented. -/
def loserUpdate (new_elo : ℝ) (m : ModelRec) : ModelRec :=
  { m with current_elo := new_elo, match_count := m.match_count + 1 }

/-- models.py record_vote as a state transition.  The vote row is created
first (flush assigns the next id); if either model lookup fails the whole
transaction rolls back, returning the state unchanged together with the
error string; otherwise ratings, counters and the two history rows are
committed as one unit.  The single parameter now stands for the
datetime.utcnow() column defaults of the vote and history rows. -/
noncomputable def record_vote (s : ArenaState) (now : DT) (user_id : Option ℕ)
    (text : String) (chosen_model_id rejected_model_id model_type : String) :
    (Option VoteRec × Option String) × ArenaState :=
  let vote : VoteRec :=
    { id := s.votes.length + 1, user_id := user_id, text := text, vote_date := now,
      model_chosen := chosen_model_id, model_rejected := rejected_model_id,
      model_type := model_type }
  match findModel s.models chosen_model_id model_type,
      findModel s.models rejected_model_id model_type with
  | some chosen_model, some rejected_model =>
    let p := calculate_elo_change chosen_model.current_elo rejected_model.current_elo
    let models1 := updateModel s.models chosen_model_id model_type (winnerUpdate p.1)
    let models2 := updateModel models1 rejected_model_id model_type (loserUpdate p.2)
    let chosen_history : EloHistoryRec :=
      { model_id := chosen_model_id, timestamp := now, elo_score := p.1,
        vote_id := some vote.id, model_type := model_type }
    let rejected_history : EloHistoryRec :=
      { model_id := rejected_model_id, timestamp := now, elo_score := p.2,
        vote_id := some vote.id, model_type := model_type }
    ((some vote, none),
     { models := models2, votes := s.votes ++ [vote],
       elo_history := s.elo_history ++ [chosen_history, rejected_history] })
  | _, _ =>
    ((none, some "One or both models not found for the specified model type"), s)

/-- Replaying a vote ledger: re-run record_vote for each stored vote, in
order, using the fields stored on the vote itself. -/
noncomputable def replayState (init : ArenaState) (votes : List VoteRec) : ArenaState :=
  votes.foldl
    (fun s v =>
      (record_vote s v.vote_date v.user_id v.text v.model_chosen v.model_rejected
        v.model_type).2)
    init

/-- States reachable from an initial state by any sequence of record_vote
operations. -/
inductive Reachable (init : ArenaState) : ArenaState → Prop where
  | refl : Reachable init init
  | step (s : ArenaState) (now : DT) (uid : Option ℕ) (text : String)
      (c r mt : String) : Reachable init s →
      Reachable init (record_vote s now uid text c r mt).2

/-! ### Vote integrity (security.py)

Timestamps of this module live on a linear timeline and are embedded as
rational seconds; timedelta(...).days is floor division by 86400.  The float
thresholds 0.2 and 0.6 are embedded as the exact rationals 1/5 and 3/5: with
49 intervals none of the possible count ratios k/49 lies within the rounding
error of the float literals, so the comparisons agree. -/

/-- A row of the user table.  The first four fields are the models.py User
columns. -/
structure UserRec where
  id : ℕ
  username : String
  hf_id : String
  join_date : Option ℚ
  /-- Modelled from the spec: the optional external-account creation date of
  a voter.  migrate.py declares the user.hf_account_created column and
  security.py reads it, but the mapped attribute is missing from the
  models.py User class in src. -/
  hf_account_created : Option ℚ

/-- A vote row as used by security.py: voter, date, chosen and rejected
candidate. -/
structure VoteQ where
  user_id : Option ℕ
  vote_date : ℚ
  model_chosen : String
  model_rejected : String

/-- security.py detect_suspicious_voting_patterns with the default window
(24 h, 30 votes per hour); only the boolean flag is modelled, the reason
string and the count are display-only. -/
def detect_suspicious_voting_patterns (user_id : ℕ) (votes : List VoteQ)
    (now : ℚ) : Bool :=
  if user_id = 0 then false
  else
    let time_threshold := now - 24 * 3600
    let recent_votes := (votes.filter (fun v => v.user_id == some user_id &&
        decide (time_threshold ≤ v.vote_date))).length
    let max_votes_24h := 30 * 24
    if max_votes_24h < recent_votes then true
    else
      let three_hour_threshold := now - 3 * 3600
      let votes_3h := (votes.filter (fun v => v.user_id == some user_id &&
          decide (three_hour_threshold ≤ v.vote_date))).length
      if 100 < votes_3h then true else false

/-- The votes of one voter. -/
def userVotes (user_id : ℕ) (votes : List VoteQ) : List VoteQ :=
  votes.filter (fun v => v.user_id == some user_id)

/-- Vote.query.filter_by(user_id=...).order_by(Vote.vote_date.desc()). -/
def sortVotesByDateDesc (votes : List VoteQ) : List VoteQ :=
  votes.mergeSort (fun a b => decide (b.vote_date ≤ a.vote_date))

/-- Consecutive inter-vote intervals of a most-recent-first date list. -/
def intervalsOf : List ℚ → List ℚ
  | a :: b :: rest => (a - b) :: intervalsOf (b :: rest)
  | _ => []

/-- The sustained-sequence counting loop of detect_rapid_voting, including
the final check of the run in progress. -/
def sustainedLoop : List ℚ → ℕ → ℕ → ℕ
  | [], current_sequence, count => if 10 ≤ current_sequence then count + 1 else count
  | i :: rest, current_sequence, count =>
    if i < 5 then sustainedLoop rest (current_sequence + 1) count
    else sustainedLoop rest 0 (if 10 ≤ current_sequence then count + 1 else count)

/-- The body of detect_rapid_voting after the query: takes the voter's most
recent vote dates (most recent first, at most 50) and returns the rapid
flag; the averaged interval of the source is display-only. -/
def rapidCore (recent_dates : List ℚ) : Bool :=
  if recent_dates.length < 50 then false
  else
    let intervals := intervalsOf recent_dates
    let very_rapid_votes := (intervals.filter (fun i => decide (i < 3))).length
    let extremely_rapid_votes := (intervals.filter (fun i => decide (i < 1))).length
    let sustained_rapid_sequences := sustainedLoop intervals 0 0
    let total_intervals := intervals.length
    let extremely_rapid_ratio : ℚ :=
      if 0 < total_intervals then (extremely_rapid_votes : ℚ) / total_intervals else 0
    let very_rapid_ratio : ℚ :=
      if 0 < total_intervals then (very_rapid_votes : ℚ) / total_intervals else 0
    decide (1/5 < extremely_rapid_ratio) ||
      (decide (3/5 < very_rapid_ratio) && decide (0 < sustained_rapid_sequences)) ||
      decide (2 ≤ sustained_rapid_sequences)

/-- The voter's most recent vote dates, most recent first, at most 50
(the .limit(50) query of detect_rapid_voting). -/
def recentDates (user_id : ℕ) (votes : List VoteQ) : List ℚ :=
  ((sortVotesByDateDesc (userVotes user_id votes)).map (fun v => v.vote_date)).take 50

/-- security.py detect_rapid_voting (boolean flag). -/
def detect_rapid_voting (user_id : ℕ) (votes : List VoteQ) : Bool :=
  if user_id = 0 then false
  else rapidCore (recentDates user_id votes)

/-- Times the voter chose the given candidate. -/
def biasChosen (user_id : ℕ) (votes : List VoteQ) (mid : String) : ℕ :=
  ((userVotes user_id votes).filter (fun v => v.model_chosen == mid)).length

/-- Times the given candidate appeared in the voter comparisons (chosen
side plus rejected side, as the source counts). -/
def biasAppeared (user_id : ℕ) (votes : List VoteQ) (mid : String) : ℕ :=
  ((userVotes user_id votes).filter (fun v => v.model_chosen == mid)).length +
    ((userVotes user_id votes).filter (fun v => v.model_rejected == mid)).length

/-- The maximal single-candidate bias ratio over candidates the voter
encountered at least 5 times (the max-tracking loop of the source). -/
def maxBiasRatio (user_id : ℕ) (votes : List VoteQ) : ℚ :=
  let ids := ((userVotes user_id votes).map (fun v => v.model_chosen) ++
    (userVotes user_id votes).map (fun v => v.model_rejected)).dedup
  ids.foldl
    (fun acc mid =>
      if 5 ≤ biasAppeared user_id votes mid then
        max acc ((biasChosen user_id votes mid : ℚ) /
          (biasAppeared user_id votes mid : ℚ))
      else acc)
    0

/-- security.py check_user_security_score.  The factor dictionary of the
source is display-only and omitted; the score is returned in an Except so
that the read of the local variable account_age_days, which the source never
assigns when join_date is None, can be modelled as the UnboundLocalError it
raises. -/
def check_user_security_score (user_id : Option ℕ) (users : List UserRec)
    (votes : List VoteQ) (now : ℚ) : Except String ℤ :=
  match user_id with
  | none => .ok 0
  | some uid =>
    if uid = 0 then .ok 0
    else
      match users.find? (fun u => u.id == uid) with
      | none => .ok 0
      | some user =>
        let score0 : ℤ := 100
        let account_age_days : Option ℤ :=
          user.join_date.map (fun jd => ⌊(now - jd) / 86400⌋)
        let score1 :=
          match account_age_days with
          | some d =>
            if d < 45 then score0 - 30
            else if d < 90 then score0 - 15
            else if d < 180 then score0 - 5
            else score0
          | none => score0 - 20
        let score2 :=
          match user.hf_account_created with
          | some hf =>
            let hf_age_days : ℤ := ⌊(now - hf) / 86400⌋
            if hf_age_days < 30 then score1 - 25
            else if hf_age_days < 90 then score1 - 10
            else score1
          | none => score1 - 15
        let is_suspicious := detect_suspicious_voting_patterns uid votes now
        let score3 := if is_suspicious then score2 - 25 else score2
        let is_rapid := detect_rapid_voting uid votes
        let score4 := if is_rapid then score3 - 20 else score3
        let total_votes := (votes.filter (fun v => v.user_id == some uid)).length
        match account_age_days with
        | none => .error "UnboundLocalError: account_age_days"
        | some d =>
          let score5 :=
            if d ≠ 0 ∧ d < 7 ∧ 20 < total_votes then score4 - 15 else score4
          let score6 :=
            if 5 ≤ total_votes then
              let max_bias_ratio := maxBiasRatio uid votes
              if (95 : ℚ)/100 ≤ max_bias_ratio then score5 - 30
              else if (9 : ℚ)/10 ≤ max_bias_ratio then score5 - 20
              else if (8 : ℚ)/10 ≤ max_bias_ratio then score5 - 10
              else score5
            else score5
          .ok (max 0 score6)

/-- A decomposition witnessing a run of 10 consecutive intervals under 5
seconds. -/
def hasRapidRun (intervals : List ℚ) : Prop :=
  ∃ p q r, intervals = p ++ q ++ r ∧ q.length = 10 ∧ ∀ x ∈ q, x < 5

/-- A decomposition witnessing two sustained runs: two windows of 10
consecutive intervals under 5 seconds separated by at least one interval of
5 seconds or more. -/
def hasTwoRapidRuns (intervals : List ℚ) : Prop :=
  ∃ p q r u t, intervals = p ++ q ++ r ++ u ++ t ∧
    q.length = 10 ∧ (∀ x ∈ q, x < 5) ∧ (∃ y ∈ r, 5 ≤ y) ∧
    u.length = 10 ∧ ∀ x ∈ u, x < 5

/-- The run in progress at the head of the list completes, counting the
credit cur of already-scanned rapid intervals. -/
def headRun (cur : ℕ) (l : List ℚ) : Prop :=
  ∃ q r, l = q ++ r ∧ (∀ x ∈ q, x < 5) ∧ 10 ≤ cur + q.length

/-- The credited head run completes, its terminating slow interval follows,
and a further full run occurs afterwards. -/
def headRunThen (cur : ℕ) (l : List ℚ) : Prop :=
  ∃ q y r, l = q ++ y :: r ∧ (∀ x ∈ q, x < 5) ∧ 10 ≤ cur + q.length ∧
    5 ≤ y ∧ hasRapidRun r

/-! ### Concrete fixtures for witnesses -/

/-- A fresh model row with the column defaults of models.py. -/
def defaultModel (id name model_type : String) : ModelRec :=
  { id := id, name := name, model_type := model_type, current_elo := 1500,
    win_count := 0, match_count := 0, is_open := false, is_active := true,
    model_url := none }

/-- Two-model initial state used by witnesses. -/
def initTwo : ArenaState :=
  { models := [defaultModel "m1" "Model One" "tts", defaultModel "m2" "Model Two" "tts"],
    votes := [], elo_history := [] }

/-- A sample timestamp. -/
def dt0 : DT := ⟨2024, 1, 15, 3600⟩

/-! ### Comparison sessions (app.py) -/

/-- An in-memory comparison session of app.tts_sessions /
app.conversational_sessions. -/
structure SessionData where
  model_a : String
  model_b : String
  audio_a : String
  audio_b : String
  text : String
  created_at : DT
  expires_at : DT
  voted : Bool
deriving DecidableEq

/-- The distinct rejection causes of the vote routes, with the HTTP codes
of app.py: turnstile 403, notFound 404, invalidChosen 400, expired 410,
alreadyVoted 400, recordFailed 500. -/
inductive SubmitError where
  | turnstile
  | notFound
  | invalidChosen
  | expired
  | alreadyVoted
  | recordFailed (msg : String)
deriving DecidableEq

/-- Outcome of one vote submission. -/
inductive SubmitOutcome where
  | ok
  | err (e : SubmitError)
deriving DecidableEq

/-- In-process web state: the session dictionary plus the database. -/
structure WebState where
  sessions : List (String × SessionData)
  db : ArenaState

/-- app.py cleanup_session: drop the session entry (file removal is out of
scope of the embedding). -/
def cleanup_session (sessions : List (String × SessionData)) (session_id : String) :
    List (String × SessionData) :=
  sessions.filter (fun p => !(p.1 == session_id))

/-- Setting session_data voted = True inside the dictionary. -/
def markVoted (sessions : List (String × SessionData)) (session_id : String) :
    List (String × SessionData) :=
  sessions.map (fun p => if p.1 == session_id then (p.1, { p.2 with voted := true }) else p)

/-- Dictionary lookup guarded by the falsiness check of
if not session_id or session_id not in app.tts_sessions. -/
def sessionLookup (sessions : List (String × SessionData)) (session_id : String) :
    Option (String × SessionData) :=
  if session_id == "" then none else sessions.find? (fun p => p.1 == session_id)

/-- app.py submit_vote / submit_podcast_vote as a state transition.  The
checks happen in source order: turnstile, session presence, chosen key
validity, expiry (which also destroys the session), the voted flag, then
record_vote; on success the voted flag is set.  turnstile_ok stands for
"turnstile disabled or already verified"; now stands for the
datetime.utcnow() calls of the route. -/
noncomputable def submit_vote (st : WebState) (turnstile_ok : Bool) (now : DT)
    (session_id chosen_model_key : String) (user_id : Option ℕ)
    (model_type : String) : SubmitOutcome × WebState :=
  if !turnstile_ok then (.err .turnstile, st)
  else
    match sessionLookup st.sessions session_id with
    | none => (.err .notFound, st)
    | some (_, session_data) =>
      if !(chosen_model_key == "a" || chosen_model_key == "b") then
        (.err .invalidChosen, st)
      else if DT.ltb session_data.expires_at now then
        (.err .expired, { st with sessions := cleanup_session st.sessions session_id })
      else if session_data.voted then (.err .alreadyVoted, st)
      else
        let chosen_id :=
          if chosen_model_key == "a" then session_data.model_a else session_data.model_b
        let rejected_id :=
          if chosen_model_key == "a" then session_data.model_b else session_data.model_a
        let rcd := record_vote st.db now user_id session_data.text chosen_id
          rejected_id model_type
        match rcd.1.2 with
        | some e => (.err (.recordFailed e), { st with db := rcd.2 })
        | none => (.ok, { sessions := markVoted st.sessions session_id, db := rcd.2 })

/-- One submission request of a trace. -/
structure SubmitOp where
  turnstile_ok : Bool
  now : DT
  session_id : String
  chosen_model_key : String
  user_id : Option ℕ
  model_type : String

/-- Run a sequence of vote submissions, collecting the outcomes. -/
noncomputable def runSubmits (st : WebState) :
    List SubmitOp → List SubmitOutcome × WebState
  | [] => ([], st)
  | op :: ops =>
    let r := submit_vote st op.turnstile_ok op.now op.session_id
      op.chosen_model_key op.user_id op.model_type
    let rest := runSubmits r.2 ops
    (r.1 :: rest.1, rest.2)

/-- Number of accepted submissions for a given session id along a trace. -/
def successCount : List SubmitOp → List SubmitOutcome → String → ℕ
  | op :: ops, outc :: outs, sid =>
    (if op.session_id = sid ∧ outc = SubmitOutcome.ok then 1 else 0) +
      successCount ops outs sid
  | _, _, _ => 0

/-- Invariant: the session either is gone from the store or already carries
voted = true. -/
def votedOrGone (sessions : List (String × SessionData)) (sid : String) : Prop :=
  ∀ p, sessions.find? (fun q => q.1 == sid) = some p → p.2.voted = true

/-! ### Session fixtures for witnesses -/

/-- A sample session between the two fixture models. -/
def sessionFixture (voted : Bool) (expires : DT) : SessionData :=
  { model_a := "m1", model_b := "m2", audio_a := "a.wav", audio_b := "b.wav",
    text := "hello", created_at := dt0, expires_at := expires, voted := voted }

/-- A timestamp after dt0. -/
def dtLater : DT := ⟨2024, 6, 1, 0⟩

/-- Empty web state. -/
def webEmpty : WebState := ⟨[], ArenaState.mk [] [] []⟩

/-- Web state with one session that expires at dt0. -/
def webExpired : WebState := ⟨[("s1", sessionFixture false dt0)], initTwo⟩

/-- Web state with one already-voted session. -/
def webVoted : WebState := ⟨[("s1", sessionFixture true dtLater)], initTwo⟩

/-! ### Leaderboards (models.py) -/

/-- The Model.win_rate property: win_count / match_count * 100, and 0 when
match_count is 0. -/
def modelWinRate (m : ModelRec) : ℚ :=
  if m.match_count = 0 then 0 else (m.win_count : ℚ) / (m.match_count : ℚ) * 100

/-- Rank to display tier: 1-2 tier-s, 3-4 tier-a, 5-7 tier-b, 8+ none. -/
def tierOfRank (rank : ℕ) : String :=
  if rank ≤ 2 then "tier-s" else if rank ≤ 4 then "tier-a"
  else if rank ≤ 7 then "tier-b" else ""

/-- One leaderboard row as rendered by models.py; win_rate holds the integer
that the format string renders, elo the truncated rating. -/
structure BoardEntry where
  rank : ℕ
  id : String
  name : String
  model_url : Option String
  win_rate : ℤ
  total_votes : ℕ
  elo : ℤ
  tier : String
  is_open : Bool
deriving DecidableEq

/-- The models of a category ordered by current_elo descending
(Model.query.filter_by(model_type=...).order_by(Model.current_elo.desc())). -/
noncomputable def leaderboardSorted (model_type : String) (models : List ModelRec) :
    List ModelRec :=
  (models.filter (fun m => m.model_type == model_type)).mergeSort
    (fun a b => decide (b.current_elo ≤ a.current_elo))

/-- The dictionary built for one model at one rank in get_leaderboard_data. -/
noncomputable def mkBoardEntry (rank : ℕ) (m : ModelRec) : BoardEntry :=
  { rank := rank, id := m.id, name := m.name, model_url := m.model_url,
    win_rate := roundHalfEven (modelWinRate m), total_votes := m.match_count,
    elo := pyTruncR m.current_elo, tier := tierOfRank rank, is_open := m.is_open }

/-- The enumerate(models, 1) loop of get_leaderboard_data. -/
noncomputable def numberModels : ℕ → List ModelRec → List BoardEntry
  | _, [] => []
  | rank, m :: rest => mkBoardEntry rank m :: numberModels (rank + 1) rest

/-- models.py get_leaderboard_data. -/
noncomputable def get_leaderboard_data (model_type : String)
    (models : List ModelRec) : List BoardEntry :=
  numberModels 1 (leaderboardSorted model_type models)

/-- The latest elo_history row for the model with timestamp at or before the
target date (filter then order_by timestamp desc, first); among equal
timestamps the most recently inserted row wins. -/
def latestHistoryAtOrBefore (hist : List EloHistoryRec) (model_id model_type : String)
    (target : DT) : Option EloHistoryRec :=
  (hist.filter (fun h => h.model_id == model_id && h.model_type == model_type &&
      h.timestamp.leb target)).foldl
    (fun acc h =>
      match acc with
      | none => some h
      | some a => if a.timestamp.leb h.timestamp then some h else some a)
    none

/-- Votes involving the model, of the category, dated at or before target. -/
def histMatchCount (votes : List VoteRec) (model_id model_type : String)
    (target : DT) : ℕ :=
  (votes.filter (fun v => (v.model_chosen == model_id || v.model_rejected == model_id) &&
      v.model_type == model_type && v.vote_date.leb target)).length

/-- Votes won by the model, of the category, dated at or before target. -/
def histWinCount (votes : List VoteRec) (model_id model_type : String)
    (target : DT) : ℕ :=
  (votes.filter (fun v => v.model_chosen == model_id &&
      v.model_type == model_type && v.vote_date.leb target)).length

/-- A pre-ranking historical leaderboard row. -/
structure HistEntryPre where
  id : String
  name : String
  model_url : Option String
  win_rate : ℤ
  total_votes : ℕ
  elo : ℤ
  is_open : Bool
deriving DecidableEq

/-- The per-model dictionary of get_historical_leaderboard_data, none when
the model has no history at or before the target date. -/
noncomputable def histEntryFor (s : ArenaState) (model_type : String) (target : DT)
    (m : ModelRec) : Option HistEntryPre :=
  (latestHistoryAtOrBefore s.elo_history m.id model_type target).map fun elo_entry =>
    let match_count := histMatchCount s.votes m.id model_type target
    let win_count := histWinCount s.votes m.id model_type target
    let win_rate : ℚ :=
      if 0 < match_count then (win_count : ℚ) / (match_count : ℚ) * 100 else 0
    { id := m.id, name := m.name, model_url := m.model_url,
      win_rate := roundHalfEven win_rate, total_votes := match_count,
      elo := pyTruncR elo_entry.elo_score, is_open := m.is_open }

/-- The unsorted historical rows, in model-listing order. -/
noncomputable def histPre (model_type : String) (s : ArenaState) (target : DT) :
    List HistEntryPre :=
  (s.models.filter (fun m => m.model_type == model_type)).filterMap
    (histEntryFor s model_type target)

/-- result.sort(key=elo, reverse=True): stable descending sort on the
truncated elo of the row dictionaries. -/
noncomputable def histSorted (model_type : String) (s : ArenaState) (target : DT) :
    List HistEntryPre :=
  (histPre model_type s target).mergeSort (fun a b => decide (b.elo ≤ a.elo))

/-- Rank and tier assignment pass of get_historical_leaderboard_data. -/
def mkHistEntry (rank : ℕ) (e : HistEntryPre) : BoardEntry :=
  { rank := rank, id := e.id, name := e.name, model_url := e.model_url,
    win_rate := e.win_rate, total_votes := e.total_votes, elo := e.elo,
    tier := tierOfRank rank, is_open := e.is_open }

/-- The enumerate(result, 1) loop of get_historical_leaderboard_data. -/
def numberHist : ℕ → List HistEntryPre → List BoardEntry
  | _, [] => []
  | rank, e :: rest => mkHistEntry rank e :: numberHist (rank + 1) rest

/-- models.py get_historical_leaderboard_data (target_date given). -/
noncomputable def get_historical_leaderboard_data (model_type : String)
    (s : ArenaState) (target : DT) : List BoardEntry :=
  numberHist 1 (histSorted model_type s target)

/-! ### Leaderboard fixtures for the counterexamples -/

/-- A model with 2 wins out of 3 matches: win_rate 200/3, which the format
string renders as 67, not the truncation 66. -/
def modelTwoOfThree : ModelRec :=
  { id := "m1", name := "Model One", model_type := "tts", current_elo := 1500,
    win_count := 2, match_count := 3, is_open := false, is_active := true,
    model_url := none }

/-! ### Key historical dates (models.py get_key_historical_dates) -/

/-- vote_date.replace(day=1): keeps year, month and the time of day. -/
def DT.replaceDay1 (d : DT) : DT := { d with day := 1 }

/-- Move to the first of the next month, keeping day and time of day
(the month-increment branch of the while loop). -/
def DT.nextMonth (d : DT) : DT :=
  if d.month = 12 then { d with year := d.year + 1, month := 1 }
  else { d with month := d.month + 1 }

/-- The while loop of get_key_historical_dates, with explicit fuel; the fuel
passed by get_key_historical_dates provably dominates the number of months
to traverse. -/
def keyDatesLoop : ℕ → DT → DT → List DT
  | 0, _, _ => []
  | fuel + 1, current, endd =>
    if current.leb endd then current :: keyDatesLoop fuel current.nextMonth endd
    else []

/-- Vote.query.order_by(vote_date.asc()).first(): the earliest vote date. -/
def minVoteDate (votes : List VoteRec) : Option DT :=
  votes.foldl
    (fun acc v =>
      match acc with
      | none => some v.vote_date
      | some d => if d.leb v.vote_date then some d else some v.vote_date)
    none

/-- Vote.query.order_by(vote_date.desc()).first(): the latest vote date. -/
def maxVoteDate (votes : List VoteRec) : Option DT :=
  votes.foldl
    (fun acc v =>
      match acc with
      | none => some v.vote_date
      | some d => if v.vote_date.leb d then some d else some v.vote_date)
    none

/-- models.py get_key_historical_dates.  Month starts are generated from the
first vote month while they do not pass the last vote date; then, following
the and/or precedence of the source condition, the exact last date is
appended exactly when the last generated date differs from it in month or in
year.  The empty-dates arm mirrors an unreachable IndexError of the source
(the first generated date never passes a calendar-valid last date). -/
def get_key_historical_dates (model_type : String) (s : ArenaState) : List DT :=
  let tv := s.votes.filter (fun v => v.model_type == model_type)
  match minVoteDate tv, maxVoteDate tv with
  | some first_date, some end_date =>
    let dates := keyDatesLoop ((end_date.year + 1) * 12) first_date.replaceDay1 end_date
    match dates.getLast? with
    | none => dates
    | some lastd =>
      if !(lastd.month == end_date.month) || !(lastd.year == end_date.year) then
        dates ++ [end_date]
      else dates
  | _, _ => []

/-- Months since year zero. -/
def DT.monthIndex (d : DT) : ℕ := d.year * 12 + (d.month - 1)

/-- The day-1 date of the month with the given index, at the given time of
day. -/
def monthStart (mi : ℕ) (tod : ℕ) : DT := ⟨mi / 12, mi % 12 + 1, 1, tod⟩

/-- One past the index of the last month whose day-1 date (at the given time
of day) is at or before endd. -/
def monthStopBound (endd : DT) (tod : ℕ) : ℕ :=
  endd.monthIndex + (if 1 < endd.day ∨ (endd.day = 1 ∧ tod ≤ endd.tod) then 1 else 0)

/-- Fixture for the key-dates counterexample: first vote January 15 of year
1, last vote March 20 of year 1, both mid-month. -/
def stateKeyDates : ArenaState :=
  { models := [],
    votes :=
      [VoteRec.mk 1 none "t" (DT.mk 1 1 15 0) "m1" "m2" "tts",
       VoteRec.mk 2 none "t" (DT.mk 1 3 20 0) "m1" "m2" "tts"],
    elo_history := [] }

/-- Two models for the historical tie counterexample. -/
def stateHistTie : ArenaState :=
  { models := [defaultModel "A" "Model A" "tts", defaultModel "B" "Model B" "tts"],
    votes := [],
    elo_history :=
      [{ model_id := "A", timestamp := dt0, elo_score := 1516.1, vote_id := some 1,
         model_type := "tts" },
       { model_id := "B", timestamp := dt0, elo_score := 1516.9, vote_id := some 2,
         model_type := "tts" }] }

end Arena

namespace Arena

/-! ### Theorems -/

/-- Claim C1: for every pair of ratings, calculate_elo_change computes the
expected score of each side as 1 / (1 + 10 ^ ((other − own) / 400)) and
returns old + 32 * (outcome − expected) with outcome 1 for the winner and 0
for the loser; at winner = loser = 1500 it returns exactly (1516, 1484). -/
theorem C1_elo_update_formula (w l : ℝ) :
    calculate_elo_change w l =
      (w + 32 * (1 - 1 / (1 + (10 : ℝ) ^ ((l - w) / 400))),
       l + 32 * (0 - 1 / (1 + (10 : ℝ) ^ ((w - l) / 400)))) ∧
    calculate_elo_change 1500 1500 = (1516, 1484) := by
  constructor
  · rfl
  · unfold calculate_elo_change
    norm_num

/-- Helper: find after an update that preserves the key fields is the find
before the update with the update function applied to the hit. -/
theorem findModel_updateModel (models : List ModelRec) (id mt id' mt' : String)
    (f : ModelRec → ModelRec)
    (hf : ∀ m, (f m).id = m.id ∧ (f m).model_type = m.model_type) :
    findModel (updateModel models id mt f) id' mt' =
      (findModel models id' mt').map
        (fun m => if m.id == id && m.model_type == mt then f m else m) := by
  unfold findModel updateModel
  rw [List.find?_map]
  have hp : ((fun m => m.id == id' && m.model_type == mt') ∘
        fun m => if (m.id == id && m.model_type == mt) = true then f m else m) =
      (fun m : ModelRec => m.id == id' && m.model_type == mt') := by
    funext m
    simp only [Function.comp_apply]
    by_cases h : (m.id == id && m.model_type == mt) = true
    · rw [if_pos h, (hf m).1, (hf m).2]
    · rw [if_neg h]
  rw [hp]

/-- Helper: the expected score of either side lies strictly between 0 and 1,
so the winner strictly gains and the loser strictly loses rating. -/
theorem calculate_elo_change_strict (w l : ℝ) :
    w < (calculate_elo_change w l).1 ∧ (calculate_elo_change w l).2 < l := by
  have h1 : (0 : ℝ) < (10 : ℝ) ^ ((l - w) / 400) :=
    Real.rpow_pos_of_pos (by norm_num) _
  have h2 : (0 : ℝ) < (10 : ℝ) ^ ((w - l) / 400) :=
    Real.rpow_pos_of_pos (by norm_num) _
  unfold calculate_elo_change
  constructor
  · have hlt : 1 / (1 + (10 : ℝ) ^ ((l - w) / 400)) < 1 := by
      rw [div_lt_one (by linarith)]
      linarith
    simp only
    nlinarith
  · have hpos : 0 < 1 / (1 + (10 : ℝ) ^ ((w - l) / 400)) := by positivity
    simp only
    nlinarith

/-- Claim C10: an accepted vote between two distinct existing candidates
strictly increases the stored rating of the winner and strictly decreases
the stored rating of the loser, while bumping their counters. -/
theorem C10_accepted_vote_moves_ratings (s : ArenaState) (now : DT)
    (uid : Option ℕ) (text : String) (c r mt : String) (cm rm : ModelRec)
    (hc : findModel s.models c mt = some cm)
    (hr : findModel s.models r mt = some rm)
    (hne : c ≠ r) :
    (findModel (record_vote s now uid text c r mt).2.models c mt =
        some { cm with
                 current_elo := (calculate_elo_change cm.current_elo rm.current_elo).1,
                 win_count := cm.win_count + 1, match_count := cm.match_count + 1 } ∧
      findModel (record_vote s now uid text c r mt).2.models r mt =
        some { rm with
                 current_elo := (calculate_elo_change cm.current_elo rm.current_elo).2,
                 match_count := rm.match_count + 1 } ∧
      cm.current_elo < (calculate_elo_change cm.current_elo rm.current_elo).1 ∧
      (calculate_elo_change cm.current_elo rm.current_elo).2 < rm.current_elo) := by
  have hc0 : List.find? (fun m => m.id == c && m.model_type == mt) s.models = some cm := hc
  have hr0 : List.find? (fun m => m.id == r && m.model_type == mt) s.models = some rm := hr
  have hcm := List.find?_some hc0
  have hrm := List.find?_some hr0
  simp only [Bool.and_eq_true, beq_iff_eq] at hcm hrm
  have hstate : (record_vote s now uid text c r mt).2.models =
      updateModel
        (updateModel s.models c mt
          (winnerUpdate (calculate_elo_change cm.current_elo rm.current_elo).1))
        r mt
        (loserUpdate (calculate_elo_change cm.current_elo rm.current_elo).2) := by
    unfold record_vote
    rw [hc, hr]
  have hcne : (cm.id == r) = false := by
    simp only [beq_eq_false_iff_ne, ne_eq]
    rw [hcm.1]
    exact hne
  have hrne : (rm.id == c) = false := by
    simp only [beq_eq_false_iff_ne, ne_eq]
    rw [hrm.1]
    intro hh
    exact hne hh.symm
  rw [hstate]
  rw [findModel_updateModel _ r mt c mt
      (loserUpdate (calculate_elo_change cm.current_elo rm.current_elo).2)
      (fun m => ⟨rfl, rfl⟩),
    findModel_updateModel _ c mt c mt
      (winnerUpdate (calculate_elo_change cm.current_elo rm.current_elo).1)
      (fun m => ⟨rfl, rfl⟩), hc,
    findModel_updateModel _ r mt r mt
      (loserUpdate (calculate_elo_change cm.current_elo rm.current_elo).2)
      (fun m => ⟨rfl, rfl⟩),
    findModel_updateModel _ c mt r mt
      (winnerUpdate (calculate_elo_change cm.current_elo rm.current_elo).1)
      (fun m => ⟨rfl, rfl⟩), hr]
  refine ⟨?_, ?_, (calculate_elo_change_strict _ _).1, (calculate_elo_change_strict _ _).2⟩
  · have hcr : (c == r) = false := by simpa using hne
    simp [winnerUpdate, loserUpdate, hcm.1, hcm.2, hcr, hne]
  · have hrc' : ¬r = c := fun h => hne h.symm
    have hrc : (r == c) = false := by simpa using hrc'
    simp [winnerUpdate, loserUpdate, hrm.1, hrm.2, hrc, hrc']

/-- Witness for C10 at a concrete two-model state. -/
theorem C10_witness :
    ("m1" : String) ≠ "m2" ∧
    (findModel (record_vote initTwo dt0 none "hi" "m1" "m2" "tts").2.models "m1" "tts" =
        some { defaultModel "m1" "Model One" "tts" with
                 current_elo :=
                   (calculate_elo_change (defaultModel "m1" "Model One" "tts").current_elo
                     (defaultModel "m2" "Model Two" "tts").current_elo).1,
                 win_count := (defaultModel "m1" "Model One" "tts").win_count + 1,
                 match_count := (defaultModel "m1" "Model One" "tts").match_count + 1 } ∧
      findModel (record_vote initTwo dt0 none "hi" "m1" "m2" "tts").2.models "m2" "tts" =
        some { defaultModel "m2" "Model Two" "tts" with
                 current_elo :=
                   (calculate_elo_change (defaultModel "m1" "Model One" "tts").current_elo
                     (defaultModel "m2" "Model Two" "tts").current_elo).2,
                 match_count := (defaultModel "m2" "Model Two" "tts").match_count + 1 } ∧
      (defaultModel "m1" "Model One" "tts").current_elo <
        (calculate_elo_change (defaultModel "m1" "Model One" "tts").current_elo
          (defaultModel "m2" "Model Two" "tts").current_elo).1 ∧
      (calculate_elo_change (defaultModel "m1" "Model One" "tts").current_elo
          (defaultModel "m2" "Model Two" "tts").current_elo).2 <
        (defaultModel "m2" "Model Two" "tts").current_elo) :=
  ⟨by decide,
   C10_accepted_vote_moves_ratings initTwo dt0 none "hi" "m1" "m2" "tts" _ _ rfl rfl
     (by decide)⟩

/-- Claim C2: after any sequence of record_vote operations from an initial
state whose models carry the default rating 1500 and zero counters,
re-running record_vote over the stored vote ledger in order reproduces the
entire current state: the stored ratings, the counters, and every stored
elo_history row. -/
theorem C2_replay_reproduces_state (models0 : List ModelRec)
    (h0 : ∀ m ∈ models0, m.current_elo = 1500 ∧ m.win_count = 0 ∧ m.match_count = 0)
    (s : ArenaState) (hs : Reachable (ArenaState.mk models0 [] []) s) :
    replayState (ArenaState.mk models0 [] []) s.votes = s := by
  induction hs with
  | refl => rfl
  | step s' now uid text c r mt hs ih =>
    have hfold : ∀ votes,
        replayState (ArenaState.mk models0 [] []) votes =
          List.foldl
            (fun st v =>
              (record_vote st v.vote_date v.user_id v.text v.model_chosen
                v.model_rejected v.model_type).2)
            (ArenaState.mk models0 [] []) votes := fun _ => rfl
    rcases hc : findModel s'.models c mt with _ | cm
    · have hst : (record_vote s' now uid text c r mt).2 = s' := by
        unfold record_vote
        rw [hc]
      rw [hst]
      exact ih
    rcases hr : findModel s'.models r mt with _ | rm
    · have hst : (record_vote s' now uid text c r mt).2 = s' := by
        unfold record_vote
        rw [hc, hr]
      rw [hst]
      exact ih
    · have hst : (record_vote s' now uid text c r mt).2.votes =
          s'.votes ++ [VoteRec.mk (s'.votes.length + 1) uid text now c r mt] := by
        unfold record_vote
        rw [hc, hr]
      rw [hst, hfold, List.foldl_append, ← hfold, ih]
      simp only [List.foldl_cons, List.foldl_nil]

/-- Witness for C2: one concrete accepted vote from the two-model default
state, replayed. -/
theorem C2_witness :
    (∀ m ∈ initTwo.models,
        m.current_elo = 1500 ∧ m.win_count = 0 ∧ m.match_count = 0) ∧
    replayState initTwo ((record_vote initTwo dt0 none "hi" "m1" "m2" "tts").2).votes =
      (record_vote initTwo dt0 none "hi" "m1" "m2" "tts").2 := by
  have h0 : ∀ m ∈ initTwo.models,
      m.current_elo = 1500 ∧ m.win_count = 0 ∧ m.match_count = 0 := by
    intro m hm
    simp only [initTwo, defaultModel, List.mem_cons, List.not_mem_nil, or_false] at hm
    rcases hm with h | h <;> subst h <;> exact ⟨rfl, rfl, rfl⟩
  exact ⟨h0,
    C2_replay_reproduces_state initTwo.models h0 _
      (Reachable.step initTwo dt0 none "hi" "m1" "m2" "tts" Reachable.refl)⟩

/-- Claim C3: if either model lookup fails, record_vote returns the
not-found error and leaves the whole state unchanged: no vote row, no
rating change, no counter change, no history row. -/
theorem C3_record_vote_not_found_unchanged (s : ArenaState) (now : DT)
    (uid : Option ℕ) (text : String) (c r mt : String)
    (h : findModel s.models c mt = none ∨ findModel s.models r mt = none) :
    record_vote s now uid text c r mt =
      ((none, some "One or both models not found for the specified model type"), s) := by
  rcases h with h | h
  · unfold record_vote
    rw [h]
  · unfold record_vote
    rw [h]
    rcases findModel s.models c mt with _ | cm <;> rfl

/-- Witness for C3 at a concrete state: an empty model table makes every
lookup fail and the state is returned unchanged. -/
theorem C3_witness :
    findModel (ArenaState.mk [] [] []).models "m1" "tts" = none ∧
    record_vote (ArenaState.mk [] [] []) dt0 none "hello" "m1" "m2" "tts" =
      ((none, some "One or both models not found for the specified model type"),
        ArenaState.mk [] [] []) :=
  ⟨rfl, C3_record_vote_not_found_unchanged _ _ _ _ _ _ _ (Or.inl rfl)⟩

/-- Helper: looking a key up after cleanup_session of another key is the
original lookup; cleanup of the same key yields none. -/
theorem find?_cleanup_session (sessions : List (String × SessionData))
    (s' sid : String) :
    (cleanup_session sessions s').find? (fun q => q.1 == sid) =
      if sid = s' then none else sessions.find? (fun q => q.1 == sid) := by
  induction sessions with
  | nil => simp [cleanup_session]
  | cons p rest ih =>
    unfold cleanup_session at ih ⊢
    rw [List.filter_cons]
    by_cases h1 : (p.1 == s') = true
    · rw [if_neg (by simp [h1]), ih]
      by_cases h3 : sid = s'
      · rw [if_pos h3, if_pos h3]
      · have h2 : (p.1 == sid) = false := by
          simp only [beq_iff_eq] at h1
          simp only [beq_eq_false_iff_ne, ne_eq, h1]
          exact fun hh => h3 hh.symm
        rw [if_neg h3, if_neg h3]
        simp only [List.find?_cons, h2]
    · rw [if_pos (by simp [h1])]
      by_cases h2 : (p.1 == sid) = true
      · have h3 : ¬sid = s' := by
          intro hh
          apply h1
          simp only [beq_iff_eq] at h2 ⊢
          rw [h2, hh]
        rw [if_neg h3]
        simp only [List.find?_cons, h2]
      · have h2f : (p.1 == sid) = false := by
          simp only [Bool.not_eq_true] at h2
          exact h2
        simp only [List.find?_cons, h2f, ih]

/-- Helper: markVoted preserves the key of every entry, so lookups commute
with it. -/
theorem find?_markVoted (sessions : List (String × SessionData)) (s' sid : String) :
    (markVoted sessions s').find? (fun q => q.1 == sid) =
      (sessions.find? (fun q => q.1 == sid)).map
        (fun p => if p.1 == s' then (p.1, { p.2 with voted := true }) else p) := by
  unfold markVoted
  rw [List.find?_map]
  have hcomp : ((fun q : String × SessionData => q.1 == sid) ∘
        fun p => if p.1 == s' then (p.1, { p.2 with voted := true }) else p) =
      (fun q : String × SessionData => q.1 == sid) := by
    funext q
    simp only [Function.comp_apply]
    split <;> rfl
  rw [hcomp]

/-- Helper: the invariant survives markVoted for any key. -/
theorem votedOrGone_markVoted (sessions : List (String × SessionData))
    (s' sid : String) (h : votedOrGone sessions sid) :
    votedOrGone (markVoted sessions s') sid := by
  intro p hp
  rw [find?_markVoted] at hp
  rcases ho : sessions.find? (fun q => q.1 == sid) with _ | p0
  · rw [ho] at hp
    simp at hp
  · rw [ho] at hp
    simp only [Option.map_some', Option.some.injEq] at hp
    have hv := h p0 ho
    by_cases hq : (p0.1 == s') = true
    · rw [← hp]
      simp [hq]
    · rw [← hp]
      simp [hq, hv]

/-- Helper: after markVoted of the key itself the invariant holds
unconditionally. -/
theorem votedOrGone_markVoted_self (sessions : List (String × SessionData))
    (sid : String) : votedOrGone (markVoted sessions sid) sid := by
  intro p hp
  rw [find?_markVoted] at hp
  rcases ho : sessions.find? (fun q => q.1 == sid) with _ | p0
  · rw [ho] at hp
    simp at hp
  · rw [ho] at hp
    simp only [Option.map_some', Option.some.injEq] at hp
    have hq := List.find?_some ho
    rw [← hp]
    simp [hq]

/-- Helper: the invariant survives cleanup_session. -/
theorem votedOrGone_cleanup (sessions : List (String × SessionData))
    (s' sid : String) (h : votedOrGone sessions sid) :
    votedOrGone (cleanup_session sessions s') sid := by
  intro p hp
  rw [find?_cleanup_session] at hp
  by_cases h3 : sid = s'
  · rw [if_pos h3] at hp
    cases hp
  · rw [if_neg h3] at hp
    exact h p hp

/-- Helper: the possible session-store effects of one submission. -/
theorem submit_vote_sessions_cases (st : WebState) (t : Bool) (now : DT)
    (sid' key : String) (uid : Option ℕ) (mt : String) :
    (submit_vote st t now sid' key uid mt).2.sessions = st.sessions ∨
    (submit_vote st t now sid' key uid mt).2.sessions =
      cleanup_session st.sessions sid' ∨
    (submit_vote st t now sid' key uid mt).2.sessions =
      markVoted st.sessions sid' := by
  unfold submit_vote
  rcases t with _ | _
  · left
    rfl
  rcases hl : sessionLookup st.sessions sid' with _ | ⟨a, sd⟩
  · left
    rfl
  simp only [Bool.not_true, Bool.false_eq_true, if_false]
  by_cases hk : (!(key == "a" || key == "b")) = true
  · rw [if_pos hk]
    left
    rfl
  rw [if_neg hk]
  by_cases he : DT.ltb sd.expires_at now = true
  · rw [if_pos he]
    right
    left
    rfl
  rw [if_neg he]
  by_cases hv : sd.voted = true
  · rw [if_pos hv]
    left
    rfl
  rw [if_neg hv]
  rcases hr : (record_vote st.db now uid sd.text
      (if (key == "a") = true then sd.model_a else sd.model_b)
      (if (key == "a") = true then sd.model_b else sd.model_a) mt).1.2 with _ | e
  · simp only [hr]
    right
    right
    trivial
  · simp only [hr]
    left
    trivial

/-- Helper: a submission is accepted only if the session was present with
voted = false, and then the store records the flag flip. -/
theorem submit_vote_ok_inv (st : WebState) (t : Bool) (now : DT)
    (sid' key : String) (uid : Option ℕ) (mt : String)
    (hok : (submit_vote st t now sid' key uid mt).1 = SubmitOutcome.ok) :
    (submit_vote st t now sid' key uid mt).2.sessions =
      markVoted st.sessions sid' ∧
    ∃ a sd, sessionLookup st.sessions sid' = some (a, sd) ∧ sd.voted = false := by
  unfold submit_vote at hok ⊢
  rcases t with _ | _
  · simp at hok
  rcases hl : sessionLookup st.sessions sid' with _ | ⟨a, sd⟩
  · rw [hl] at hok
    simp at hok
  rw [hl] at hok
  simp only [Bool.not_true, Bool.false_eq_true, if_false] at hok ⊢
  by_cases hk : (!(key == "a" || key == "b")) = true
  · rw [if_pos hk] at hok
    simp at hok
  rw [if_neg hk] at hok ⊢
  by_cases he : DT.ltb sd.expires_at now = true
  · rw [if_pos he] at hok
    simp at hok
  rw [if_neg he] at hok ⊢
  by_cases hv : sd.voted = true
  · rw [if_pos hv] at hok
    simp at hok
  rw [if_neg hv] at hok ⊢
  rcases hr : (record_vote st.db now uid sd.text
      (if (key == "a") = true then sd.model_a else sd.model_b)
      (if (key == "a") = true then sd.model_b else sd.model_a) mt).1.2 with _ | e
  · simp only [hr]
    exact ⟨trivial, a, sd, rfl, by simpa using hv⟩
  · simp only [hr] at hok
    simp at hok

/-- Helper: once the invariant holds, a submission for that session id can
not be accepted. -/
theorem submit_vote_no_second_success (st : WebState) (t : Bool) (now : DT)
    (sid key : String) (uid : Option ℕ) (mt : String)
    (h : votedOrGone st.sessions sid) :
    (submit_vote st t now sid key uid mt).1 ≠ SubmitOutcome.ok := by
  intro hok
  obtain ⟨-, a, sd, hl, hv⟩ := submit_vote_ok_inv st t now sid key uid mt hok
  unfold sessionLookup at hl
  split at hl
  · cases hl
  · have := h (a, sd) hl
    rw [hv] at this
    cases this

/-- Helper: the invariant is preserved by any submission. -/
theorem votedOrGone_submit (st : WebState) (t : Bool) (now : DT)
    (sid' key : String) (uid : Option ℕ) (mt : String) (sid : String)
    (h : votedOrGone st.sessions sid) :
    votedOrGone (submit_vote st t now sid' key uid mt).2.sessions sid := by
  rcases submit_vote_sessions_cases st t now sid' key uid mt with hcase | hcase | hcase
  · rw [hcase]; exact h
  · rw [hcase]; exact votedOrGone_cleanup _ _ _ h
  · rw [hcase]; exact votedOrGone_markVoted _ _ _ h

/-- Helper: with the invariant in force no trace accepts a vote for that
session again. -/
theorem runSubmits_zero_success (ops : List SubmitOp) (st : WebState)
    (sid : String) (h : votedOrGone st.sessions sid) :
    successCount ops (runSubmits st ops).1 sid = 0 := by
  induction ops generalizing st with
  | nil => rfl
  | cons op ops ih =>
    simp only [runSubmits, successCount]
    rw [ih _ (votedOrGone_submit _ _ _ _ _ _ _ _ h)]
    by_cases hid : op.session_id = sid
    · rw [if_neg]
      rintro ⟨h1, h2⟩
      subst hid
      exact submit_vote_no_second_success st op.turnstile_ok op.now op.session_id
        op.chosen_model_key op.user_id op.model_type h h2
    · rw [if_neg]
      rintro ⟨h1, h2⟩
      exact hid h1

/-- Claim C4: every vote submission is rejected with a distinct error per
cause: notFound for an unknown, empty or destroyed session id; expired
whenever the current time is past the session expiry, checked before the
voted flag and without needing a prior sweep; alreadyVoted when the voted
flag is already set (and then nothing changes); and along any sequence of
submissions at most one submission per session id is ever accepted, so the
voted flag flips false to true at most once and at most one vote is
recorded per session. -/
theorem C4_submit_vote_state_machine :
    (∀ (st : WebState) (now : DT) (sid key : String) (uid : Option ℕ) (mt : String),
      (sid = "" ∨ st.sessions.find? (fun p => p.1 == sid) = none) →
      submit_vote st true now sid key uid mt = (.err .notFound, st)) ∧
    (∀ (st : WebState) (now : DT) (sid key : String) (uid : Option ℕ) (mt : String)
      (a : String) (sd : SessionData),
      (key = "a" ∨ key = "b") →
      st.sessions.find? (fun p => p.1 == sid) = some (a, sd) →
      sid ≠ "" →
      DT.ltb sd.expires_at now = true →
      (submit_vote st true now sid key uid mt).1 = .err .expired ∧
      (submit_vote st true now sid key uid mt).2.sessions =
        cleanup_session st.sessions sid) ∧
    (∀ (st : WebState) (now : DT) (sid key : String) (uid : Option ℕ) (mt : String)
      (a : String) (sd : SessionData),
      (key = "a" ∨ key = "b") →
      st.sessions.find? (fun p => p.1 == sid) = some (a, sd) →
      sid ≠ "" →
      DT.ltb sd.expires_at now = false →
      sd.voted = true →
      submit_vote st true now sid key uid mt = (.err .alreadyVoted, st)) ∧
    (∀ (st : WebState) (ops : List SubmitOp) (sid : String),
      successCount ops (runSubmits st ops).1 sid ≤ 1) := by
  refine ⟨?_, ?_, ?_, ?_⟩
  · intro st now sid key uid mt h
    have hl : sessionLookup st.sessions sid = none := by
      unfold sessionLookup
      rcases h with h | h
      · rw [if_pos (by simp [h])]
      · split
        · rfl
        · exact h
    unfold submit_vote
    rw [hl]
    rfl
  · intro st now sid key uid mt a sd hkey hfind hsid hexp
    have hl : sessionLookup st.sessions sid = some (a, sd) := by
      unfold sessionLookup
      rw [if_neg (by simpa using hsid)]
      exact hfind
    have hkeyb : (!(key == "a" || key == "b")) = false := by
      rcases hkey with h | h <;> subst h <;> rfl
    unfold submit_vote
    rw [hl]
    simp [hkeyb, hexp]
  · intro st now sid key uid mt a sd hkey hfind hsid hexp hvoted
    have hl : sessionLookup st.sessions sid = some (a, sd) := by
      unfold sessionLookup
      rw [if_neg (by simpa using hsid)]
      exact hfind
    have hkeyb : (!(key == "a" || key == "b")) = false := by
      rcases hkey with h | h <;> subst h <;> rfl
    unfold submit_vote
    rw [hl]
    simp [hkeyb, hexp, hvoted]
  · intro st ops sid
    induction ops generalizing st with
    | nil => exact Nat.zero_le 1
    | cons op ops ih =>
      simp only [runSubmits, successCount]
      by_cases hsucc : op.session_id = sid ∧
          (submit_vote st op.turnstile_ok op.now op.session_id op.chosen_model_key
            op.user_id op.model_type).1 = SubmitOutcome.ok
      · rw [if_pos hsucc]
        have hpost : votedOrGone
            (submit_vote st op.turnstile_ok op.now op.session_id op.chosen_model_key
              op.user_id op.model_type).2.sessions sid := by
          have hmv := (submit_vote_ok_inv st op.turnstile_ok op.now op.session_id
            op.chosen_model_key op.user_id op.model_type hsucc.2).1
          rw [hmv, hsucc.1]
          exact votedOrGone_markVoted_self _ _
        rw [runSubmits_zero_success ops _ sid hpost]
      · rw [if_neg hsucc]
        simpa using ih _

/-- Helper: the numbering loop of the current leaderboard, elementwise. -/
theorem numberModels_getElem? (l : List ModelRec) (k i : ℕ) :
    (numberModels k l)[i]? = l[i]?.map (fun m => mkBoardEntry (k + i) m) := by
  induction l generalizing k i with
  | nil => simp [numberModels]
  | cons m rest ih =>
    rcases i with _ | i
    · simp [numberModels]
    · simp only [numberModels, List.getElem?_cons_succ, ih]
      have hk : k + 1 + i = k + (i + 1) := by omega
      rw [hk]

/-- Helper: the numbering loop preserves length. -/
theorem numberModels_length (l : List ModelRec) (k : ℕ) :
    (numberModels k l).length = l.length := by
  induction l generalizing k with
  | nil => rfl
  | cons m rest ih => simp [numberModels, ih]

/-- Helper: transitivity of the descending elo comparison. -/
theorem eloDesc_trans (a b c : ModelRec)
    (hab : decide (b.current_elo ≤ a.current_elo) = true)
    (hbc : decide (c.current_elo ≤ b.current_elo) = true) :
    decide (c.current_elo ≤ a.current_elo) = true := by
  simp only [decide_eq_true_eq] at *
  exact le_trans hbc hab

/-- Helper: totality of the descending elo comparison. -/
theorem eloDesc_total (a b : ModelRec) :
    (decide (b.current_elo ≤ a.current_elo) ||
      decide (a.current_elo ≤ b.current_elo)) = true := by
  simp only [Bool.or_eq_true, decide_eq_true_eq]
  exact le_total _ _

/-- Claim C5 (amended): the current leaderboard lists exactly the candidates
of the category, ordered by stored rating descending, rank assigned from 1,
tier from the rank thresholds, win_rate equal to win_count/match_count x 100
(0 when match_count is 0) rounded half-to-even to an integer percentage (the
behaviour of the .0f format, not truncation), and the displayed rating
truncated to an integer. -/
theorem C5_current_leaderboard (mt : String) (models : List ModelRec) :
    (leaderboardSorted mt models).Perm
      (models.filter (fun m => m.model_type == mt)) ∧
    (leaderboardSorted mt models).Pairwise
      (fun a b => b.current_elo ≤ a.current_elo) ∧
    (get_leaderboard_data mt models).length =
      (models.filter (fun m => m.model_type == mt)).length ∧
    (∀ (i : ℕ) (m : ModelRec), (leaderboardSorted mt models)[i]? = some m →
      (get_leaderboard_data mt models)[i]? = some
        { rank := i + 1, id := m.id, name := m.name, model_url := m.model_url,
          win_rate := roundHalfEven (modelWinRate m), total_votes := m.match_count,
          elo := pyTruncR m.current_elo, tier := tierOfRank (i + 1),
          is_open := m.is_open }) := by
  refine ⟨List.mergeSort_perm _ _, ?_, ?_, ?_⟩
  · have hs := List.sorted_mergeSort eloDesc_trans eloDesc_total
      (models.filter (fun m => m.model_type == mt))
    exact hs.imp (fun h => by simpa using h)
  · rw [get_leaderboard_data, numberModels_length]
    exact (List.mergeSort_perm _ _).length_eq
  · intro i m hm
    rw [get_leaderboard_data, numberModels_getElem?, hm]
    simp only [Option.map_some']
    rw [Nat.add_comm 1 i]
    rfl

/-- Witness for C5 at a concrete one-model table. -/
theorem C5_witness :
    (leaderboardSorted "tts" [modelTwoOfThree])[0]? = some modelTwoOfThree ∧
    (get_leaderboard_data "tts" [modelTwoOfThree])[0]? = some
      { rank := 1, id := modelTwoOfThree.id, name := modelTwoOfThree.name,
        model_url := modelTwoOfThree.model_url,
        win_rate := roundHalfEven (modelWinRate modelTwoOfThree),
        total_votes := modelTwoOfThree.match_count,
        elo := pyTruncR modelTwoOfThree.current_elo, tier := tierOfRank 1,
        is_open := modelTwoOfThree.is_open } := by
  have h0 : (leaderboardSorted "tts" [modelTwoOfThree])[0]? = some modelTwoOfThree := by
    unfold leaderboardSorted
    rw [show ([modelTwoOfThree].filter (fun m => m.model_type == "tts")) =
      [modelTwoOfThree] from rfl]
    rw [List.mergeSort_singleton]
    rfl
  exact ⟨h0, (C5_current_leaderboard "tts" [modelTwoOfThree]).2.2.2 0 modelTwoOfThree h0⟩

/-- Counterexample for C5 as frozen: with 2 wins out of 3 matches the code
renders win_rate 67 (rounding), while truncating win_count/match_count x 100
gives 66. -/
theorem C5_counterexample :
    (get_leaderboard_data "tts" [modelTwoOfThree]).map (fun e => e.win_rate) = [67] ∧
    pyTruncQ (modelWinRate modelTwoOfThree) = 66 ∧ (67 : ℤ) ≠ 66 := by
  have hm : modelWinRate modelTwoOfThree = 200/3 := by
    simp only [modelWinRate, modelTwoOfThree]
    norm_num
  have hf : (⌊(200:ℚ)/3⌋ : ℤ) = 66 := by
    rw [Int.floor_eq_iff]
    norm_num
  have hr : roundHalfEven ((200:ℚ)/3) = 67 := by
    unfold roundHalfEven
    rw [hf]
    norm_num
  refine ⟨?_, ?_, by decide⟩
  · unfold get_leaderboard_data leaderboardSorted
    rw [show ([modelTwoOfThree].filter (fun m => m.model_type == "tts")) =
      [modelTwoOfThree] from rfl]
    rw [List.mergeSort_singleton]
    simp only [numberModels, mkBoardEntry, hm, hr, List.map_cons, List.map_nil]
  · unfold pyTruncQ
    rw [hm, if_pos (by norm_num)]
    exact hf

/-- Helper: a strictly-later datetime is not at-or-before. -/
theorem DT.ltb_leb_false (a b : DT) (h : DT.ltb a b = true) : DT.leb b a = false := by
  cases hlb : DT.leb b a with
  | false => rfl
  | true =>
    exfalso
    simp only [DT.ltb, Bool.or_eq_true, Bool.and_eq_true, decide_eq_true_eq,
      beq_iff_eq] at h
    simp only [DT.leb, Bool.or_eq_true, Bool.and_eq_true, decide_eq_true_eq,
      beq_iff_eq] at hlb
    omega

/-- Helper: in any reachable state every history row carries the timestamp
and category of the vote that produced it. -/
theorem reachable_history_from_votes (models0 : List ModelRec) (s : ArenaState)
    (hs : Reachable (ArenaState.mk models0 [] []) s) :
    ∀ h ∈ s.elo_history, ∃ v ∈ s.votes,
      v.model_type = h.model_type ∧ v.vote_date = h.timestamp := by
  induction hs with
  | refl => intro h hh; cases hh
  | step s' now uid text c r mt hs ih =>
    rcases hc : findModel s'.models c mt with _ | cm
    · have hst : (record_vote s' now uid text c r mt).2 = s' := by
        unfold record_vote
        rw [hc]
      rw [hst]
      exact ih
    rcases hr : findModel s'.models r mt with _ | rm
    · have hst : (record_vote s' now uid text c r mt).2 = s' := by
        unfold record_vote
        rw [hc, hr]
      rw [hst]
      exact ih
    · have hst : (record_vote s' now uid text c r mt).2.elo_history =
          s'.elo_history ++
            [EloHistoryRec.mk c now
              (calculate_elo_change cm.current_elo rm.current_elo).1
              (some (s'.votes.length + 1)) mt,
             EloHistoryRec.mk r now
              (calculate_elo_change cm.current_elo rm.current_elo).2
              (some (s'.votes.length + 1)) mt] := by
        unfold record_vote
        rw [hc, hr]
      have hsv : (record_vote s' now uid text c r mt).2.votes =
          s'.votes ++ [VoteRec.mk (s'.votes.length + 1) uid text now c r mt] := by
        unfold record_vote
        rw [hc, hr]
      intro h hh
      rw [hst] at hh
      rw [hsv]
      rcases List.mem_append.mp hh with hold | hnew
      · obtain ⟨v, hv, hvp⟩ := ih h hold
        exact ⟨v, List.mem_append.mpr (Or.inl hv), hvp⟩
      · refine ⟨VoteRec.mk (s'.votes.length + 1) uid text now c r mt,
          List.mem_append.mpr (Or.inr (by simp)), ?_⟩
        simp only [List.mem_cons, List.mem_singleton, List.not_mem_nil,
          or_false] at hnew
        rcases hnew with h1 | h2
        · rw [h1]
          exact ⟨rfl, rfl⟩
        · rw [h2]
          exact ⟨rfl, rfl⟩

/-- Helper: the numbering loop of the historical leaderboard, elementwise. -/
theorem numberHist_getElem? (l : List HistEntryPre) (k i : ℕ) :
    (numberHist k l)[i]? = l[i]?.map (fun e => mkHistEntry (k + i) e) := by
  induction l generalizing k i with
  | nil => simp [numberHist]
  | cons e rest ih =>
    rcases i with _ | i
    · simp [numberHist]
    · simp only [numberHist, List.getElem?_cons_succ, ih]
      have hk : k + 1 + i = k + (i + 1) := by omega
      rw [hk]

/-- Helper: the historical numbering loop preserves length. -/
theorem numberHist_length (l : List HistEntryPre) (k : ℕ) :
    (numberHist k l).length = l.length := by
  induction l generalizing k with
  | nil => rfl
  | cons e rest ih => simp [numberHist, ih]

/-- Helper: transitivity of the descending displayed-elo comparison. -/
theorem histDesc_trans (a b c : HistEntryPre)
    (hab : decide (b.elo ≤ a.elo) = true) (hbc : decide (c.elo ≤ b.elo) = true) :
    decide (c.elo ≤ a.elo) = true := by
  simp only [decide_eq_true_eq] at *
  exact le_trans hbc hab

/-- Helper: totality of the descending displayed-elo comparison. -/
theorem histDesc_total (a b : HistEntryPre) :
    (decide (b.elo ≤ a.elo) || decide (a.elo ≤ b.elo)) = true := by
  simp only [Bool.or_eq_true, decide_eq_true_eq]
  exact le_total _ _

/-- Claim C6 (amended): the historical leaderboard takes, for each candidate
of the category, the latest history row dated at or before the cutoff (rows
are skipped when there is none), counts wins and matches only from votes
dated at or before the cutoff, and orders the rows by the displayed
(truncated-to-integer) historical rating descending, candidates with equal
displayed ratings keeping candidate-listing order, with rank and tier
assigned as in the current leaderboard; and in any reachable state, for a
cutoff strictly before every vote of the category the result is empty. -/
theorem C6_historical_leaderboard (mt : String) (s : ArenaState) (target : DT) :
    (histSorted mt s target).Perm (histPre mt s target) ∧
    (histSorted mt s target).Pairwise (fun a b => b.elo ≤ a.elo) ∧
    (get_historical_leaderboard_data mt s target).length =
      (histPre mt s target).length ∧
    (∀ (i : ℕ) (e : HistEntryPre), (histSorted mt s target)[i]? = some e →
      (get_historical_leaderboard_data mt s target)[i]? =
        some (mkHistEntry (i + 1) e)) ∧
    (∀ (models0 : List ModelRec), Reachable (ArenaState.mk models0 [] []) s →
      (∀ v ∈ s.votes, v.model_type = mt → DT.ltb target v.vote_date = true) →
      get_historical_leaderboard_data mt s target = []) := by
  refine ⟨List.mergeSort_perm _ _, ?_, ?_, ?_, ?_⟩
  · have hs := List.sorted_mergeSort histDesc_trans histDesc_total
      (histPre mt s target)
    exact hs.imp (fun h => by simpa using h)
  · rw [get_historical_leaderboard_data, numberHist_length]
    exact (List.mergeSort_perm _ _).length_eq
  · intro i e he
    rw [get_historical_leaderboard_data, numberHist_getElem?, he]
    simp only [Option.map_some']
    rw [Nat.add_comm 1 i]
  · intro models0 hreach hlt
    have hhist := reachable_history_from_votes models0 s hreach
    have hpre : histPre mt s target = [] := by
      unfold histPre
      rw [List.filterMap_eq_nil_iff]
      intro m hm
      unfold histEntryFor
      have hfil : (s.elo_history.filter (fun h => h.model_id == m.id &&
          h.model_type == mt && h.timestamp.leb target)) = [] := by
        rw [List.filter_eq_nil_iff]
        intro h hh
        obtain ⟨v, hv, hvm, hvd⟩ := hhist h hh
        by_cases hmt : h.model_type = mt
        · have hl := hlt v hv (by rw [hvm, hmt])
          have hleb : DT.leb h.timestamp target = false := by
            rw [← hvd]
            exact DT.ltb_leb_false _ _ hl
          simp [hleb]
        · simp [hmt]
      unfold latestHistoryAtOrBefore
      rw [hfil]
      rfl
    unfold get_historical_leaderboard_data histSorted
    rw [hpre, List.mergeSort_nil]
    rfl

/-- Witness for C6: the fresh one-model state is reachable from itself and,
with no votes at all, the historical leaderboard at any date is empty. -/
theorem C6_witness :
    (∀ v ∈ (ArenaState.mk [defaultModel "A" "Model A" "tts"] [] []).votes,
        v.model_type = "tts" → DT.ltb dt0 v.vote_date = true) ∧
    get_historical_leaderboard_data "tts"
      (ArenaState.mk [defaultModel "A" "Model A" "tts"] [] []) dt0 = [] :=
  ⟨fun v hv => absurd hv (by simp),
   (C6_historical_leaderboard "tts" _ dt0).2.2.2.2 _ Reachable.refl
     (fun v hv => absurd hv (by simp))⟩

/-- Counterexample for C6 as frozen: with raw historical ratings 1516.1 for
model A and 1516.9 for model B, both truncate to 1516, the stable sort keeps
listing order and the result places A before B even though the historical
rating of A is strictly below that of B, so the list is not ordered by the
historical rating descending. -/
theorem C6_counterexample :
    (get_historical_leaderboard_data "tts" stateHistTie dtLater).map
        (fun e => e.id) = ["A", "B"] ∧
    (latestHistoryAtOrBefore stateHistTie.elo_history "A" "tts" dtLater).map
        (fun h => h.elo_score) = some 1516.1 ∧
    (latestHistoryAtOrBefore stateHistTie.elo_history "B" "tts" dtLater).map
        (fun h => h.elo_score) = some 1516.9 ∧
    ¬((1516.9 : ℝ) ≤ (1516.1 : ℝ)) := by
  have hA : pyTruncR (1516.1 : ℝ) = 1516 := by
    unfold pyTruncR
    rw [if_pos (by norm_num), Int.floor_eq_iff]
    norm_num
  have hB : pyTruncR (1516.9 : ℝ) = 1516 := by
    unfold pyTruncR
    rw [if_pos (by norm_num), Int.floor_eq_iff]
    norm_num
  have hr0 : roundHalfEven 0 = 0 := by
    unfold roundHalfEven
    norm_num
  have hpre : histPre "tts" stateHistTie dtLater =
      [HistEntryPre.mk "A" "Model A" none 0 0 1516 false,
       HistEntryPre.mk "B" "Model B" none 0 0 1516 false] := by
    simp [histPre, histEntryFor, latestHistoryAtOrBefore, histMatchCount,
      histWinCount, stateHistTie, defaultModel, DT.leb, dt0, dtLater, hA, hB, hr0]
  have hsort : histSorted "tts" stateHistTie dtLater =
      [HistEntryPre.mk "A" "Model A" none 0 0 1516 false,
       HistEntryPre.mk "B" "Model B" none 0 0 1516 false] := by
    unfold histSorted
    rw [hpre]
    simp [List.mergeSort]
  refine ⟨?_, ?_, ?_, by norm_num⟩
  · unfold get_historical_leaderboard_data
    rw [hsort]
    simp [numberHist, mkHistEntry]
  · simp [latestHistoryAtOrBefore, stateHistTie, DT.leb, dt0, dtLater]
  · simp [latestHistoryAtOrBefore, stateHistTie, DT.leb, dt0, dtLater]

/-- Helper: transitivity of the datetime order. -/
theorem DT.leb_trans (a b c : DT) (hab : DT.leb a b = true) (hbc : DT.leb b c = true) :
    DT.leb a c = true := by
  simp only [DT.leb, Bool.or_eq_true, Bool.and_eq_true, decide_eq_true_eq,
    beq_iff_eq] at *
  omega

/-- Helper: resetting the day to 1 moves a calendar-valid date backwards. -/
theorem replaceDay1_leb_self (d : DT) (h : 1 ≤ d.day) :
    DT.leb d.replaceDay1 d = true := by
  obtain ⟨y, m, dd, t⟩ := d
  simp only at h
  simp only [DT.replaceDay1, DT.leb, Bool.or_eq_true, Bool.and_eq_true,
    decide_eq_true_eq, beq_iff_eq, true_and, and_true]
  omega

/-- Helper: replace(day=1) lands on the month start of the month index. -/
theorem replaceDay1_eq_monthStart (d : DT) (h1 : 1 ≤ d.month) (h2 : d.month ≤ 12) :
    d.replaceDay1 = monthStart d.monthIndex d.tod := by
  obtain ⟨y, m, dd, t⟩ := d
  simp only at h1 h2
  simp only [DT.replaceDay1, monthStart, DT.monthIndex, DT.mk.injEq,
    true_and, and_true]
  omega

/-- Helper: the month increment maps month starts to the next month start. -/
theorem nextMonth_monthStart (mi tod : ℕ) :
    (monthStart mi tod).nextMonth = monthStart (mi + 1) tod := by
  simp only [DT.nextMonth, monthStart]
  split
  · rename_i h
    simp only [DT.mk.injEq, true_and, and_true]
    omega
  · rename_i h
    simp only [DT.mk.injEq, true_and, and_true]
    omega

/-- Helper: a month start is at or before endd exactly when its index is
below the stop bound. -/
theorem monthStart_leb (mi tod : ℕ) (endd : DT) (h1 : 1 ≤ endd.month)
    (h2 : endd.month ≤ 12) :
    (monthStart mi tod).leb endd = true ↔ mi < monthStopBound endd tod := by
  simp only [monthStart, DT.leb, DT.monthIndex, monthStopBound, Bool.or_eq_true,
    Bool.and_eq_true, decide_eq_true_eq, beq_iff_eq]
  split
  · rename_i h
    omega
  · rename_i h
    omega

/-- Helper: the month loop, fully evaluated into a month-start range. -/
theorem keyDatesLoop_monthStart (fuel : ℕ) (endd : DT) (h1 : 1 ≤ endd.month)
    (h2 : endd.month ≤ 12) :
    ∀ (mi tod : ℕ), monthStopBound endd tod ≤ mi + fuel →
      keyDatesLoop fuel (monthStart mi tod) endd =
        (List.range (monthStopBound endd tod - mi)).map
          (fun k => monthStart (mi + k) tod) := by
  induction fuel with
  | zero =>
    intro mi tod hfuel
    rw [show monthStopBound endd tod - mi = 0 by omega]
    rfl
  | succ fuel ih =>
    intro mi tod hfuel
    unfold keyDatesLoop
    by_cases hlt : mi < monthStopBound endd tod
    · rw [if_pos ((monthStart_leb mi tod endd h1 h2).mpr hlt)]
      rw [nextMonth_monthStart, ih (mi + 1) tod (by omega)]
      rw [show monthStopBound endd tod - mi =
        (monthStopBound endd tod - (mi + 1)) + 1 by omega]
      rw [List.range_succ_eq_map]
      simp only [List.map_cons, List.map_map, Nat.add_zero]
      congr 1
      apply List.map_congr_left
      intro k hk
      simp only [Function.comp_apply]
      rw [show mi + Nat.succ k = mi + 1 + k by omega]
    · rw [if_neg (fun hh => hlt ((monthStart_leb mi tod endd h1 h2).mp hh))]
      rw [show monthStopBound endd tod - mi = 0 by omega]
      rfl

/-- Claim C9 (amended): for a category with no votes the result is empty;
for a category with votes it consists of the day-1 dates at the first vote
time of day for each month from the first vote month while they do not pass
the last vote date, with the exact last vote date appended only when the
last vote day-1 date (at the first vote time of day) lies after the last
vote, that is when the final generated month start falls in an earlier month
than the last vote - not whenever the last vote is mid-month. -/
theorem C9_key_dates (mt : String) (s : ArenaState) :
    (minVoteDate (s.votes.filter (fun v => v.model_type == mt)) = none →
      get_key_historical_dates mt s = []) ∧
    (∀ (fd ld : DT),
      minVoteDate (s.votes.filter (fun v => v.model_type == mt)) = some fd →
      maxVoteDate (s.votes.filter (fun v => v.model_type == mt)) = some ld →
      1 ≤ fd.month → fd.month ≤ 12 → 1 ≤ ld.month → ld.month ≤ 12 →
      1 ≤ fd.day → DT.leb fd ld = true →
      get_key_historical_dates mt s =
        (List.range (monthStopBound ld fd.tod - fd.monthIndex)).map
          (fun k => monthStart (fd.monthIndex + k) fd.tod) ++
        (if 1 < ld.day ∨ (ld.day = 1 ∧ fd.tod ≤ ld.tod) then [] else [ld])) := by
  constructor
  · intro hmin
    simp only [get_key_historical_dates, hmin]
  · intro fd ld hmin hmax h1 h2 h3 h4 h5 hle
    have hrep := replaceDay1_eq_monthStart fd h1 h2
    have hfuel : monthStopBound ld fd.tod ≤ fd.monthIndex + (ld.year + 1) * 12 := by
      unfold monthStopBound DT.monthIndex
      split <;> omega
    have hmi0 : fd.monthIndex < monthStopBound ld fd.tod := by
      have hr1 : (monthStart fd.monthIndex fd.tod).leb fd = true := by
        rw [← hrep]
        exact replaceDay1_leb_self fd h5
      exact (monthStart_leb _ _ _ h3 h4).mp (DT.leb_trans _ _ _ hr1 hle)
    have hloop := keyDatesLoop_monthStart ((ld.year + 1) * 12) ld h3 h4
      fd.monthIndex fd.tod (by omega)
    have hlast : ((List.range (monthStopBound ld fd.tod - fd.monthIndex)).map
        (fun k => monthStart (fd.monthIndex + k) fd.tod)).getLast? =
        some (monthStart (monthStopBound ld fd.tod - 1) fd.tod) := by
      rw [show monthStopBound ld fd.tod - fd.monthIndex =
        (monthStopBound ld fd.tod - fd.monthIndex - 1) + 1 by omega]
      rw [List.range_succ, List.map_append]
      simp only [List.map_cons, List.map_nil, List.getLast?_concat]
      rw [show fd.monthIndex + (monthStopBound ld fd.tod - fd.monthIndex - 1) =
        monthStopBound ld fd.tod - 1 by omega]
    simp only [get_key_historical_dates, hmin, hmax, hrep, hloop, hlast]
    by_cases hday : 1 < ld.day ∨ (ld.day = 1 ∧ fd.tod ≤ ld.tod)
    · have hstop : monthStopBound ld fd.tod = ld.monthIndex + 1 := by
        unfold monthStopBound
        rw [if_pos hday]
      have hm : (monthStopBound ld fd.tod - 1) % 12 + 1 = ld.month := by
        rw [hstop]
        unfold DT.monthIndex
        omega
      have hy : (monthStopBound ld fd.tod - 1) / 12 = ld.year := by
        rw [hstop]
        unfold DT.monthIndex
        omega
      simp only [monthStart, hm, hy, beq_self_eq_true, Bool.not_true,
        Bool.or_self, Bool.false_eq_true, if_false, if_pos hday, List.append_nil]
    · have hstop : monthStopBound ld fd.tod = ld.monthIndex := by
        unfold monthStopBound
        rw [if_neg hday]
        omega
      have hcond : (!((monthStart (monthStopBound ld fd.tod - 1) fd.tod).month ==
          ld.month) || !((monthStart (monthStopBound ld fd.tod - 1) fd.tod).year ==
          ld.year)) = true := by
        by_cases hmm : (monthStopBound ld fd.tod - 1) % 12 + 1 = ld.month
        · by_cases hyy : (monthStopBound ld fd.tod - 1) / 12 = ld.year
          · exfalso
            have : monthStopBound ld fd.tod - 1 = ld.monthIndex := by
              unfold DT.monthIndex
              omega
            omega
          · simp [monthStart, hyy]
        · simp [monthStart, hmm]
      rw [hcond]
      simp only [if_true, if_neg hday]
/-- Witness for C9: evaluating the amended description at the two-vote
fixture (first vote January 15 year 1, last vote March 20 year 1). -/
theorem C9_witness :
    minVoteDate (stateKeyDates.votes.filter (fun v => v.model_type == "tts")) =
      some (DT.mk 1 1 15 0) ∧
    maxVoteDate (stateKeyDates.votes.filter (fun v => v.model_type == "tts")) =
      some (DT.mk 1 3 20 0) ∧
    get_key_historical_dates "tts" stateKeyDates =
      (List.range (monthStopBound (DT.mk 1 3 20 0) (DT.mk 1 1 15 0).tod -
          (DT.mk 1 1 15 0).monthIndex)).map
        (fun k => monthStart ((DT.mk 1 1 15 0).monthIndex + k) (DT.mk 1 1 15 0).tod) ++
      (if 1 < (DT.mk 1 3 20 0).day ∨ ((DT.mk 1 3 20 0).day = 1 ∧
          (DT.mk 1 1 15 0).tod ≤ (DT.mk 1 3 20 0).tod) then [] else [DT.mk 1 3 20 0]) :=
  ⟨rfl, rfl,
   (C9_key_dates "tts" stateKeyDates).2 (DT.mk 1 1 15 0) (DT.mk 1 3 20 0) rfl rfl
     (by decide) (by decide) (by decide) (by decide) (by decide) (by decide)⟩

/-- Counterexample for C9 as frozen: the last vote (March 20) is mid-month,
yet the returned list holds only the three month starts and not the exact
last vote date. -/
theorem C9_counterexample :
    get_key_historical_dates "tts" stateKeyDates =
      [DT.mk 1 1 1 0, DT.mk 1 2 1 0, DT.mk 1 3 1 0] ∧
    maxVoteDate (stateKeyDates.votes.filter (fun v => v.model_type == "tts")) =
      some (DT.mk 1 3 20 0) ∧
    (DT.mk 1 3 20 0).day ≠ 1 ∧
    DT.mk 1 3 20 0 ∉ get_key_historical_dates "tts" stateKeyDates := by
  decide

/-- Claim C7: evaluating the trust score at an existing voter whose join
date is unknown.  The source deducts 20 in the else branch but the local
variable account_age_days is never assigned on that path, so the later
new-account check raises UnboundLocalError instead of returning a score. -/
theorem C7_trust_score_unbound_local :
    (List.find? (fun u => u.id == 1)
      [UserRec.mk 1 "alice" "hf1" none none]).isSome = true ∧
    check_user_security_score (some 1) [UserRec.mk 1 "alice" "hf1" none none] [] 0 =
      .error "UnboundLocalError: account_age_days" :=
  ⟨rfl, rfl⟩

/-- Helper: the count accumulator of the sustained-run loop is additive. -/
theorem sustainedLoop_acc (l : List ℚ) : ∀ cur cnt,
    sustainedLoop l cur cnt = cnt + sustainedLoop l cur 0 := by
  induction l with
  | nil =>
    intro cur cnt
    simp only [sustainedLoop]
    split <;> omega
  | cons i rest ih =>
    intro cur cnt
    simp only [sustainedLoop]
    by_cases hi : i < 5
    · rw [if_pos hi, if_pos hi, ih (cur + 1) cnt]
    · rw [if_neg hi, if_neg hi]
      rw [ih 0 (if 10 ≤ cur then cnt + 1 else cnt),
        ih 0 (if 10 ≤ cur then 0 + 1 else 0)]
      by_cases h10 : 10 ≤ cur
      · rw [if_pos h10, if_pos h10]
        omega
      · rw [if_neg h10, if_neg h10]
        omega

/-- Helper: the loop counts at least one run exactly when the credited head
run completes or a full run occurs somewhere. -/
theorem sustainedLoop_one_iff (l : List ℚ) : ∀ cur,
    1 ≤ sustainedLoop l cur 0 ↔ headRun cur l ∨ hasRapidRun l := by
  induction l with
  | nil =>
    intro cur
    simp only [sustainedLoop]
    constructor
    · intro h
      left
      by_cases h10 : 10 ≤ cur
      · exact ⟨[], [], by simp, by simp, by simpa using h10⟩
      · rw [if_neg h10] at h
        omega
    · rintro (⟨q, r, hqr, hq, hlen⟩ | ⟨p, q, r, hpqr, hlen, hq⟩)
      · have hq0 : q = [] := by

          cases q with
          | nil => rfl
          | cons a as => exact absurd hqr (by simp)
        subst hq0
        simp only [List.length_nil, Nat.add_zero] at hlen
        rw [if_pos hlen]
      · exfalso
        have := congrArg List.length hpqr
        simp only [List.length_nil, List.length_append, hlen] at this
        omega
  | cons i rest ih =>
    intro cur
    simp only [sustainedLoop]
    by_cases hi : i < 5
    · rw [if_pos hi, ih (cur + 1)]
      constructor
      · rintro (⟨q, r, hqr, hq, hlen⟩ | ⟨p, q, r, hpqr, hlen, hq⟩)
        · left
          refine ⟨i :: q, r, by rw [hqr]; simp, ?_, by simp; omega⟩
          intro x hx
          rcases List.mem_cons.mp hx with h | h
          · rw [h]
            exact hi
          · exact hq x h
        · right
          exact ⟨i :: p, q, r, by rw [hpqr]; simp, hlen, hq⟩
      · rintro (⟨q, r, hqr, hq, hlen⟩ | ⟨p, q, r, hpqr, hlen, hq⟩)
        · cases q with
          | nil =>
            left
            refine ⟨[], rest, by simp, by simp, ?_⟩
            simp only [List.length_nil, Nat.add_zero] at hlen
            simp
            omega
          | cons a q' =>
            rw [List.cons_append] at hqr
            injection hqr with ha hrest
            left
            refine ⟨q', r, hrest, fun x hx => hq x (List.mem_cons.mpr (Or.inr hx)), ?_⟩
            simp only [List.length_cons] at hlen
            omega
        · cases p with
          | nil =>
            cases q with
            | nil => simp at hlen
            | cons a q' =>
              rw [List.nil_append, List.cons_append] at hpqr
              injection hpqr with ha hrest
              left
              refine ⟨q', r, hrest,
                fun x hx => hq x (List.mem_cons.mpr (Or.inr hx)), ?_⟩
              simp only [List.length_cons] at hlen
              omega
          | cons a p' =>
            rw [List.cons_append, List.cons_append] at hpqr
            injection hpqr with ha hrest
            right
            exact ⟨p', q, r, hrest, hlen, hq⟩
    · rw [if_neg hi]
      rw [sustainedLoop_acc rest 0 (if 10 ≤ cur then 0 + 1 else 0)]
      by_cases h10 : 10 ≤ cur
      · rw [if_pos h10]
        constructor
        · intro _
          left
          exact ⟨[], i :: rest, rfl, by simp, by simpa using h10⟩
        · intro _
          omega
      · rw [if_neg h10, Nat.zero_add, ih 0]
        constructor
        · rintro (⟨q, r, hqr, hq, hlen⟩ | ⟨p, q, r, hpqr, hlen, hq⟩)
          · right
            refine ⟨[i], q.take 10, q.drop 10 ++ r, ?_, ?_, ?_⟩
            · rw [hqr]
              simp only [List.cons_append, List.nil_append]
              rw [← List.append_assoc, List.take_append_drop]
            · rw [List.length_take]
              simp only [List.length_nil, Nat.zero_add] at hlen
              omega
            · intro x hx
              exact hq x (List.mem_of_mem_take hx)
          · right
            exact ⟨i :: p, q, r, by rw [hpqr]; simp, hlen, hq⟩
        · rintro (⟨q, r, hqr, hq, hlen⟩ | ⟨p, q, r, hpqr, hlen, hq⟩)
          · exfalso
            cases q with
            | nil =>
              simp only [List.length_nil, Nat.add_zero] at hlen
              omega
            | cons a q' =>
              rw [List.cons_append] at hqr
              injection hqr with ha hrest
              exact hi (ha ▸ hq a (List.mem_cons_self a q'))
          · cases p with
            | nil =>
              exfalso
              cases q with
              | nil => simp at hlen
              | cons a q' =>
                rw [List.nil_append, List.cons_append] at hpqr
                injection hpqr with ha hrest
                exact hi (ha ▸ hq a (List.mem_cons_self a q'))
            | cons a p' =>
              rw [List.cons_append, List.cons_append] at hpqr
              injection hpqr with ha hrest
              right
              exact ⟨p', q, r, hrest, hlen, hq⟩

/-- Helper: a list with a slow element splits at its first slow element. -/
theorem firstSlowSplit (r : List ℚ) (h : ∃ y ∈ r, 5 ≤ y) :
    ∃ r1 y1 r2, r = r1 ++ y1 :: r2 ∧ (∀ x ∈ r1, x < 5) ∧ 5 ≤ y1 := by
  induction r with
  | nil =>
    obtain ⟨y, hy, _⟩ := h
    simp at hy
  | cons a r2 ih =>
    by_cases ha : a < 5
    · obtain ⟨y, hy, h5⟩ := h
      rcases List.mem_cons.mp hy with h | h
      · exfalso
        rw [← h] at ha
        exact absurd h5 (not_le.mpr ha)
      · obtain ⟨r1, y1, r3, heq, hr1, hy1⟩ := ih ⟨y, h, h5⟩
        refine ⟨a :: r1, y1, r3, by rw [heq]; simp, ?_, hy1⟩
        intro x hx
        rcases List.mem_cons.mp hx with h | h
        · rw [h]
          exact ha
        · exact hr1 x h
    · exact ⟨[], a, r2, by simp, by simp, le_of_not_lt ha⟩

/-- Helper: an uncredited completed head run is a full run somewhere. -/
theorem headRun_zero_hasRun (l : List ℚ) (h : headRun 0 l) : hasRapidRun l := by
  obtain ⟨q, r, hqr, hq, hlen⟩ := h
  refine ⟨[], q.take 10, q.drop 10 ++ r, ?_, ?_, ?_⟩
  · rw [hqr, List.nil_append, ← List.append_assoc, List.take_append_drop]
  · rw [List.length_take]
    simp only [Nat.zero_add] at hlen
    omega
  · intro x hx
    exact hq x (List.mem_of_mem_take hx)

/-- Helper: two separated runs give in particular one run. -/
theorem hasTwoRapidRuns_hasRun (l : List ℚ) (h : hasTwoRapidRuns l) :
    hasRapidRun l := by
  obtain ⟨p, q, r, u, t, heq, hlen, hq, _, _, _⟩ := h
  exact ⟨p, q, r ++ u ++ t, by rw [heq]; simp, hlen, hq⟩

/-- Helper: reassociating a take/drop split around a cons. -/
theorem append_take_drop_cons (q : List ℚ) (y : ℚ) (z : List ℚ) :
    q.take 10 ++ (q.drop 10 ++ y :: z) = q ++ y :: z := by
  rw [← List.append_assoc, List.take_append_drop]

/-- Helper: the loop counts at least two runs exactly when the credited head
run completes with a slow separator and a further full run follows, or two
slow-separated full runs occur. -/
theorem sustainedLoop_two_iff (l : List ℚ) : ∀ cur,
    2 ≤ sustainedLoop l cur 0 ↔ headRunThen cur l ∨ hasTwoRapidRuns l := by
  induction l with
  | nil =>
    intro cur
    simp only [sustainedLoop]
    constructor
    · intro h
      exfalso
      by_cases h10 : 10 ≤ cur
      · rw [if_pos h10] at h
        omega
      · rw [if_neg h10] at h
        omega
    · rintro (⟨q, y, r, hqr, hq, hlen, hy, hrun⟩ |
        ⟨p, q, r, u, t, heq, hlen, hq, hy, hlenu, hu⟩)
      · exfalso
        have := congrArg List.length hqr
        simp only [List.length_nil, List.length_append, List.length_cons] at this
        omega
      · exfalso
        have := congrArg List.length heq
        simp only [List.length_nil, List.length_append, hlen, hlenu] at this
        omega
  | cons i rest ih =>
    intro cur
    simp only [sustainedLoop]
    by_cases hi : i < 5
    · rw [if_pos hi, ih (cur + 1)]
      constructor
      · rintro (⟨q, y, r, hqr, hq, hlen, hy, hrun⟩ |
          ⟨p, q, r, u, t, heq, hlen, hq, hy, hlenu, hu⟩)
        · left
          refine ⟨i :: q, y, r, by rw [hqr]; simp, ?_, ?_, hy, hrun⟩
          · intro x hx
            rcases List.mem_cons.mp hx with h | h
            · rw [h]
              exact hi
            · exact hq x h
          · simp only [List.length_cons]
            omega
        · right
          exact ⟨i :: p, q, r, u, t, by rw [heq]; simp, hlen, hq, hy, hlenu, hu⟩
      · rintro (⟨q, y, r, hqr, hq, hlen, hy, hrun⟩ |
          ⟨p, q, r, u, t, heq, hlen, hq, hy, hlenu, hu⟩)
        · cases q with
          | nil =>
            exfalso
            rw [List.nil_append] at hqr
            injection hqr with ha _
            rw [ha] at hi
            exact absurd hy (not_le.mpr hi)
          | cons a q2 =>
            rw [List.cons_append] at hqr
            injection hqr with ha hrest
            left
            refine ⟨q2, y, r, hrest,
              fun x hx => hq x (List.mem_cons.mpr (Or.inr hx)), ?_, hy, hrun⟩
            simp only [List.length_cons] at hlen
            omega
        · cases p with
          | nil =>
            cases q with
            | nil => simp at hlen
            | cons a q2 =>
              rw [List.nil_append, List.cons_append] at heq
              injection heq with ha hrest
              obtain ⟨r1, y1, r3, hr, hr1, hy1⟩ := firstSlowSplit r hy
              left
              refine ⟨q2 ++ r1, y1, r3 ++ u ++ t, ?_, ?_, ?_, hy1,
                ⟨r3, u, t, rfl, hlenu, hu⟩⟩
              · rw [hrest, hr]
                simp
              · intro x hx
                rcases List.mem_append.mp hx with hx | hx
                · exact hq x (List.mem_cons.mpr (Or.inr hx))
                · exact hr1 x hx
              · rw [List.length_append]
                simp only [List.length_cons] at hlen
                omega
          | cons a p2 =>
            rw [List.cons_append] at heq
            injection heq with ha hrest
            right
            exact ⟨p2, q, r, u, t, hrest, hlen, hq, hy, hlenu, hu⟩
    · rw [if_neg hi]
      rw [sustainedLoop_acc rest 0 (if 10 ≤ cur then 0 + 1 else 0)]
      by_cases h10 : 10 ≤ cur
      · rw [if_pos h10]
        have h1 : 2 ≤ 0 + 1 + sustainedLoop rest 0 0 ↔
            1 ≤ sustainedLoop rest 0 0 := by omega
        rw [h1, sustainedLoop_one_iff rest 0]
        constructor
        · rintro (h | h)
          · left
            exact ⟨[], i, rest, by simp, by simp, by simpa using h10,
              le_of_not_lt hi, headRun_zero_hasRun rest h⟩
          · left
            exact ⟨[], i, rest, by simp, by simp, by simpa using h10,
              le_of_not_lt hi, h⟩
        · rintro (⟨q, y, r, hqr, hq, hlen, hy, hrun⟩ | h)
          · cases q with
            | nil =>
              rw [List.nil_append] at hqr
              injection hqr with ha hrest
              right
              rw [hrest]
              exact hrun
            | cons a q2 =>
              exfalso
              rw [List.cons_append] at hqr
              injection hqr with ha _
              exact hi (ha ▸ hq a (List.mem_cons_self a q2))
          · obtain ⟨p, q, r, u, t, heq, hlen, hq, hy, hlenu, hu⟩ := h
            cases p with
            | nil =>
              exfalso
              cases q with
              | nil => simp at hlen
              | cons a q2 =>
                rw [List.nil_append, List.cons_append] at heq
                injection heq with ha _
                exact hi (ha ▸ hq a (List.mem_cons_self a q2))
            | cons a p2 =>
              rw [List.cons_append] at heq
              injection heq with ha hrest
              right
              exact hasTwoRapidRuns_hasRun rest
                ⟨p2, q, r, u, t, hrest, hlen, hq, hy, hlenu, hu⟩
      · rw [if_neg h10, Nat.zero_add, ih 0]
        constructor
        · rintro (⟨q, y, r, hqr, hq, hlen, hy, hrun⟩ | h)
          · right
            obtain ⟨rp, u, rt, hr, hlenu, hu⟩ := hrun
            refine ⟨[i], q.take 10, q.drop 10 ++ y :: rp, u, rt, ?_, ?_, ?_, ?_,
              hlenu, hu⟩
            · rw [hqr, hr]
              simp only [List.cons_append, List.nil_append, List.append_assoc]
              rw [append_take_drop_cons]
            · rw [List.length_take]
              simp only [Nat.zero_add] at hlen
              omega
            · intro x hx
              exact hq x (List.mem_of_mem_take hx)
            · exact ⟨y, by simp, hy⟩
          · right
            obtain ⟨p, q, r, u, t, heq, hl2, hq2, hy2, hlu2, hu2⟩ := h
            exact ⟨i :: p, q, r, u, t, by rw [heq]; simp, hl2, hq2, hy2, hlu2, hu2⟩
        · rintro (⟨q, y, r, hqr, hq, hlen, hy, hrun⟩ | h)
          · exfalso
            cases q with
            | nil =>
              simp only [List.length_nil, Nat.add_zero] at hlen
              omega
            | cons a q2 =>
              rw [List.cons_append] at hqr
              injection hqr with ha _
              exact hi (ha ▸ hq a (List.mem_cons_self a q2))
          · obtain ⟨p, q, r, u, t, heq, hlen, hq, hy, hlenu, hu⟩ := h
            cases p with
            | nil =>
              exfalso
              cases q with
              | nil => simp at hlen
              | cons a q2 =>
                rw [List.nil_append, List.cons_append] at heq
                injection heq with ha _
                exact hi (ha ▸ hq a (List.mem_cons_self a q2))
            | cons a p2 =>
              rw [List.cons_append] at heq
              injection heq with ha hrest
              right
              exact ⟨p2, q, r, u, t, hrest, hlen, hq, hy, hlenu, hu⟩

/-- Helper: the loop run count is positive exactly when a full run occurs. -/
theorem sustainedLoop_pos_iff (l : List ℚ) :
    0 < sustainedLoop l 0 0 ↔ hasRapidRun l := by
  have h := sustainedLoop_one_iff l 0
  constructor
  · intro hp
    rcases h.mp hp with hr | hr
    · exact headRun_zero_hasRun l hr
    · exact hr
  · intro hr
    exact h.mpr (Or.inr hr)

/-- Helper: the loop counts at least two runs exactly when two
slow-separated full runs occur. -/
theorem sustainedLoop_two_top (l : List ℚ) :
    2 ≤ sustainedLoop l 0 0 ↔ hasTwoRapidRuns l := by
  rw [sustainedLoop_two_iff l 0]
  constructor
  · rintro (⟨q, y, r, hqr, hq, hlen, hy, hrun⟩ | h)
    · obtain ⟨rp, u, rt, hr, hlenu, hu⟩ := hrun
      refine ⟨[], q.take 10, q.drop 10 ++ y :: rp, u, rt, ?_, ?_, ?_, ?_,
        hlenu, hu⟩
      · rw [hqr, hr]
        simp only [List.nil_append, List.append_assoc, List.cons_append]
        rw [append_take_drop_cons]
      · rw [List.length_take]
        simp only [Nat.zero_add] at hlen
        omega
      · intro x hx
        exact hq x (List.mem_of_mem_take hx)
      · exact ⟨y, by simp, hy⟩
    · exact h
  · exact fun h => Or.inr h

/-- Helper: a date list of n entries yields n - 1 consecutive intervals. -/
theorem intervalsOf_length (l : List ℚ) : (intervalsOf l).length = l.length - 1 := by
  induction l with
  | nil => rfl
  | cons a rest ih =>
    cases rest with
    | nil => rfl
    | cons b rest2 =>
      simp only [List.length_cons] at ih
      simp only [intervalsOf, List.length_cons]
      omega

/-- Helper: the recent-dates query returns min 50 of the voter vote count. -/
theorem recentDates_length (user_id : ℕ) (votes : List VoteQ) :
    (recentDates user_id votes).length = min 50 (userVotes user_id votes).length := by
  simp only [recentDates, sortVotesByDateDesc]
  rw [List.length_take, List.length_map, (List.mergeSort_perm _ _).length_eq]

/-- Claim C8: the rapid-fire check returns not-rapid whenever the voter has
fewer than 50 recent votes, and with at least 50 votes it flags exactly when
more than 20 percent of the consecutive inter-vote intervals of the 50 most
recent votes are under 1 second, or more than 60 percent are under 3 seconds
and a run of 10 consecutive intervals under 5 seconds exists, or two such
runs separated by an interval of at least 5 seconds exist. -/
theorem C8_rapid_fire (user_id : ℕ) (votes : List VoteQ) (huid : user_id ≠ 0) :
    ((userVotes user_id votes).length < 50 →
      detect_rapid_voting user_id votes = false) ∧
    (50 ≤ (userVotes user_id votes).length →
      (detect_rapid_voting user_id votes = true ↔
        (1 : ℚ)/5 <
          (((intervalsOf (recentDates user_id votes)).filter
              (fun i => decide (i < 1))).length : ℚ) /
            ((intervalsOf (recentDates user_id votes)).length : ℚ) ∨
        ((3 : ℚ)/5 <
          (((intervalsOf (recentDates user_id votes)).filter
              (fun i => decide (i < 3))).length : ℚ) /
            ((intervalsOf (recentDates user_id votes)).length : ℚ) ∧
          hasRapidRun (intervalsOf (recentDates user_id votes))) ∨
        hasTwoRapidRuns (intervalsOf (recentDates user_id votes)))) := by
  have hlen := recentDates_length user_id votes
  constructor
  · intro h
    simp only [detect_rapid_voting, rapidCore]
    rw [if_neg huid, if_pos (show (recentDates user_id votes).length < 50 by omega)]
  · intro h
    have h50 : ¬ (recentDates user_id votes).length < 50 := by omega
    have htot : 0 < (intervalsOf (recentDates user_id votes)).length := by
      rw [intervalsOf_length]
      omega
    simp only [detect_rapid_voting, rapidCore]
    rw [if_neg huid, if_neg h50, if_pos htot, if_pos htot]
    simp only [Bool.or_eq_true, Bool.and_eq_true, decide_eq_true_eq]
    rw [sustainedLoop_pos_iff, sustainedLoop_two_top, or_assoc]

/-- Witness for C8 at a concrete voter: a voter with no votes has fewer than
50 recent votes and is not flagged. -/
theorem C8_witness :
    (1 : ℕ) ≠ 0 ∧ (userVotes 1 []).length < 50 ∧
      detect_rapid_voting 1 [] = false :=
  ⟨by decide, by decide, (C8_rapid_fire 1 [] (by decide)).1 (by decide)⟩

/-- Witness for C4 at concrete stores: an unknown id is notFound, a stale
session is expired, a voted session is alreadyVoted. -/
theorem C4_witness :
    submit_vote webEmpty true dt0 "nope" "a" none "tts" = (.err .notFound, webEmpty) ∧
    (submit_vote webExpired true dtLater "s1" "a" none "tts").1 = .err .expired ∧
    submit_vote webVoted true dt0 "s1" "a" none "tts" = (.err .alreadyVoted, webVoted) :=
  ⟨C4_submit_vote_state_machine.1 webEmpty dt0 "nope" "a" none "tts" (Or.inr rfl),
   (C4_submit_vote_state_machine.2.1 webExpired dtLater "s1" "a" none "tts" "s1"
      (sessionFixture false dt0) (Or.inl rfl) rfl (by decide) rfl).1,
   C4_submit_vote_state_machine.2.2.1 webVoted dt0 "s1" "a" none "tts" "s1"
      (sessionFixture true dtLater) (Or.inl rfl) rfl (by decide) rfl rfl⟩

end Arena
